import Mathlib

set_option maxRecDepth 100000

/-!
# Verification of the k6build Build Coordinator against its specification

This file gives a shallow embedding, in Lean 4, of the core of the `k6build`
build service (package `builder`, the file-backed object store in package
`store/file`, and the HTTP request surface in package `server`), and proves
or refutes the specification claims about it.

Modelling conventions:

* Go strings are byte strings; the inputs of interest are UTF-8 text, so we
  model a Go string as `List Char` (`GoStr`) and encode to bytes (`List Nat`,
  each < 256) with an explicit UTF-8 encoder where hashing is involved.
* Machine integers of the hash computations are modelled as `Nat` with
  explicit reduction `% 2^32` where Go would overflow.
* Fallible Go functions returning `(T, error)` are modelled as
  `Except GoErr T`.
* Collaborators that the coordinator only sees through interfaces (the
  catalog, the foundry, the object store used by `Builder.Build`) are
  modelled as function parameters: an arbitrary function models an arbitrary
  implementation of the interface, including the responses a concurrently
  racing peer could cause.
-/

/-- A Go string, as its sequence of characters. -/
abbrev GoStr := List Char

/-- The character list of a Lean string literal (used to write `GoStr`
literals). -/
def gs (s : String) : GoStr := s.data

/-- Left brace character (0x7b). -/
def lbrace : Char := Char.ofNat 123

/-- Right brace character (0x7d). -/
def rbrace : Char := Char.ofNat 125

/-- UTF-8 encoding of one code point, as byte values.  Standard UTF-8
(RFC 3629): 1 to 4 bytes depending on the code point. -/
def utf8Char (c : Char) : List Nat :=
  let n := c.toNat
  if n < 128 then [n]
  else if n < 2048 then [192 + n / 64, 128 + n % 64]
  else if n < 65536 then [224 + n / 4096, 128 + n / 64 % 64, 128 + n % 64]
  else [240 + n / 262144, 128 + n / 4096 % 64, 128 + n / 64 % 64, 128 + n % 64]

/-- UTF-8 encoding of a Go string: the byte sequence Go's `[]byte(s)` holds. -/
def utf8 (s : GoStr) : List Nat := (s.map utf8Char).flatten

/-- 2^32, the modulus of 32-bit words. -/
def m32 : Nat := 4294967296

/-- Rotate a 32-bit word left by `k` bits. -/
def rotl (k x : Nat) : Nat := ((x <<< k) ||| (x >>> (32 - k))) % m32

/-- Rotate a 32-bit word right by `k` bits. -/
def rotr (k x : Nat) : Nat := ((x >>> k) ||| (x <<< (32 - k))) % m32

/-- Bitwise complement of a 32-bit word. -/
def not32 (x : Nat) : Nat := x ^^^ 4294967295

/-- `k` bytes of `n`, big-endian. -/
def beBytes : Nat → Nat → List Nat
  | 0, _ => []
  | k + 1, n => beBytes k (n / 256) ++ [n % 256]

/-- Group a byte list into big-endian 32-bit words (trailing bytes that do
not fill a word are dropped; inputs are always multiples of 4). -/
def beWords : List Nat → List Nat
  | b0 :: b1 :: b2 :: b3 :: rest => (((b0 * 256 + b1) * 256 + b2) * 256 + b3) :: beWords rest
  | _ => []

/-- Merkle-Damgård padding shared by SHA-1 and SHA-256 (FIPS 180-4): append
bit 1 (byte 0x80), zero bytes up to 56 mod 64, then the bit length as 8
big-endian bytes. -/
def shaPad (msg : List Nat) : List Nat :=
  let l := msg.length
  msg ++ 128 :: List.replicate ((119 - l % 64) % 64) 0 ++ beBytes 8 (l * 8)

/-- SHA-1 working state. -/
structure Sha1St where
  a : Nat
  b : Nat
  c : Nat
  d : Nat
  e : Nat

/-- SHA-1 round function `f` for round `i` (FIPS 180-4 §4.1.1). -/
def sha1F (i b c d : Nat) : Nat :=
  if i < 20 then (b &&& c) ||| (not32 b &&& d)
  else if i < 40 then b ^^^ c ^^^ d
  else if i < 60 then (b &&& c) ||| (b &&& d) ||| (c &&& d)
  else b ^^^ c ^^^ d

/-- SHA-1 round constant for round `i`. -/
def sha1K (i : Nat) : Nat :=
  if i < 20 then 1518500249
  else if i < 40 then 1859775393
  else if i < 60 then 2400959708
  else 3395469782

/-- Message-schedule extension for SHA-1, on the reversed word list (head is
the most recent word): repeats `w[i] = rotl1 (w[i-3] xor w[i-8] xor w[i-14]
xor w[i-16])` the given number of times. -/
def sha1Extend : Nat → List Nat → List Nat
  | 0, rw => rw.reverse
  | k + 1, rw =>
      sha1Extend k
        (rotl 1 (rw.getD 2 0 ^^^ rw.getD 7 0 ^^^ rw.getD 13 0 ^^^ rw.getD 15 0) :: rw)

/-- One SHA-1 round applied to the working state. -/
def sha1Round (st : Sha1St) (iw : Nat × Nat) : Sha1St :=
  let t := (rotl 5 st.a + sha1F iw.1 st.b st.c st.d + st.e + sha1K iw.1 + iw.2) % m32
  ⟨t, st.a, rotl 30 st.b, st.c, st.d⟩

/-- SHA-1 compression of one 64-byte block. -/
def sha1Compress (h : Sha1St) (block : List Nat) : Sha1St :=
  let w := sha1Extend 64 (beWords block).reverse
  let f := w.enum.foldl sha1Round h
  ⟨(h.a + f.a) % m32, (h.b + f.b) % m32, (h.c + f.c) % m32,
   (h.d + f.d) % m32, (h.e + f.e) % m32⟩

/-- Iterate SHA-1 compression over the 64-byte blocks of a padded message.
The fuel argument (instantiated with the message length) only serves
structural termination; the padded message length is a multiple of 64. -/
def sha1Blocks : Nat → Sha1St → List Nat → Sha1St
  | _, h, [] => h
  | 0, h, _ => h
  | fuel + 1, h, msg => sha1Blocks fuel (sha1Compress h (msg.take 64)) (msg.drop 64)

/-- SHA-1 digest (20 bytes) of a byte sequence (FIPS 180-4). -/
def sha1Bytes (msg : List Nat) : List Nat :=
  let p := shaPad msg
  let h := sha1Blocks p.length ⟨1732584193, 4023233417, 2562383102, 271733878, 3285377520⟩ p
  beBytes 4 h.a ++ beBytes 4 h.b ++ beBytes 4 h.c ++ beBytes 4 h.d ++ beBytes 4 h.e

/-- Lowercase hex digit. -/
def hexChar (n : Nat) : Char := if n < 10 then Char.ofNat (48 + n) else Char.ofNat (87 + n)

/-- Lowercase hexadecimal rendering of a byte list, Go's `fmt.Sprintf("%x", b)`. -/
def hexBytes (bs : List Nat) : GoStr := (bs.map fun b => [hexChar (b / 16), hexChar (b % 16)]).flatten

/-- Lowercase hex SHA-1 of a byte sequence: `fmt.Sprintf("%x", sha1.Sum(b))`. -/
def sha1Hex (msg : List Nat) : GoStr := hexBytes (sha1Bytes msg)

/-- SHA-256 working state. -/
structure Sha256St where
  a : Nat
  b : Nat
  c : Nat
  d : Nat
  e : Nat
  f : Nat
  g : Nat
  h : Nat

/-- The 64 SHA-256 round constants (FIPS 180-4 §4.2.2). -/
def sha256K : List Nat :=
  [1116352408, 1899447441, 3049323471, 3921009573, 961987163, 1508970993, 2453635748, 2870763221,
   3624381080, 310598401, 607225278, 1426881987, 1925078388, 2162078206, 2614888103, 3248222580,
   3835390401, 4022224774, 264347078, 604807628, 770255983, 1249150122, 1555081692, 1996064986,
   2554220882, 2821834349, 2952996808, 3210313671, 3336571891, 3584528711, 113926993, 338241895,
   666307205, 773529912, 1294757372, 1396182291, 1695183700, 1986661051, 2177026350, 2456956037,
   2730485921, 2820302411, 3259730800, 3345764771, 3516065817, 3600352804, 4094571909, 275423344,
   430227734, 506948616, 659060556, 883997877, 958139571, 1322822218, 1537002063, 1747873779,
   1955562222, 2024104815, 2227730452, 2361852424, 2428436474, 2756734187, 3204031479, 3329325298]

/-- SHA-256 message-schedule extension on the reversed word list (head is the
most recent word): repeats
`w[i] = w[i-16] + s0(w[i-15]) + w[i-7] + s1(w[i-2])` the given number of
times. -/
def sha256Extend : Nat → List Nat → List Nat
  | 0, rw => rw.reverse
  | k + 1, rw =>
      let w15 := rw.getD 14 0
      let w2 := rw.getD 1 0
      let s0 := rotr 7 w15 ^^^ rotr 18 w15 ^^^ (w15 >>> 3)
      let s1 := rotr 17 w2 ^^^ rotr 19 w2 ^^^ (w2 >>> 10)
      sha256Extend k ((rw.getD 15 0 + s0 + rw.getD 6 0 + s1) % m32 :: rw)

/-- One SHA-256 round applied to the working state. -/
def sha256Round (st : Sha256St) (kw : Nat × Nat) : Sha256St :=
  let s1 := rotr 6 st.e ^^^ rotr 11 st.e ^^^ rotr 25 st.e
  let ch := (st.e &&& st.f) ^^^ (not32 st.e &&& st.g)
  let t1 := (st.h + s1 + ch + kw.1 + kw.2) % m32
  let s0 := rotr 2 st.a ^^^ rotr 13 st.a ^^^ rotr 22 st.a
  let mj := (st.a &&& st.b) ^^^ (st.a &&& st.c) ^^^ (st.b &&& st.c)
  let t2 := (s0 + mj) % m32
  ⟨(t1 + t2) % m32, st.a, st.b, st.c, (st.d + t1) % m32, st.e, st.f, st.g⟩

/-- SHA-256 compression of one 64-byte block. -/
def sha256Compress (h : Sha256St) (block : List Nat) : Sha256St :=
  let w := sha256Extend 48 (beWords block).reverse
  let f := (sha256K.zip w).foldl sha256Round h
  ⟨(h.a + f.a) % m32, (h.b + f.b) % m32, (h.c + f.c) % m32, (h.d + f.d) % m32,
   (h.e + f.e) % m32, (h.f + f.f) % m32, (h.g + f.g) % m32, (h.h + f.h) % m32⟩

/-- Iterate SHA-256 compression over the 64-byte blocks of a padded message. -/
def sha256Blocks : Nat → Sha256St → List Nat → Sha256St
  | _, h, [] => h
  | 0, h, _ => h
  | fuel + 1, h, msg => sha256Blocks fuel (sha256Compress h (msg.take 64)) (msg.drop 64)

/-- SHA-256 digest (32 bytes) of a byte sequence (FIPS 180-4). -/
def sha256Bytes (msg : List Nat) : List Nat :=
  let p := shaPad msg
  let h := sha256Blocks p.length
    ⟨1779033703, 3144134277, 1013904242, 2773480762, 1359893119, 2600822924, 528734635, 1541459225⟩ p
  beBytes 4 h.a ++ beBytes 4 h.b ++ beBytes 4 h.c ++ beBytes 4 h.d ++
  beBytes 4 h.e ++ beBytes 4 h.f ++ beBytes 4 h.g ++ beBytes 4 h.h

/-- Lowercase hex SHA-256: `fmt.Sprintf("%x", sha256.Sum256(b))`. -/
def sha256Hex (msg : List Nat) : GoStr := hexBytes (sha256Bytes msg)

/-! ## Error model

`k6build`'s errors are sentinel errors (`errors.New`) combined by the
recursive wrapper `k6build.Error` (`error.go`): a head error and a reason.
`NewWrappedError(err, reason)` builds one; its `Is` method matches a target
against the head, the reason, and their unwrappings, recursively.  Sentinels
created by `errors.New` are distinct values; two sentinels compare equal only
to themselves, which the distinct message strings model. -/

/-- A Go error value: a sentinel (`errors.New`) or a wrapping of a head error
with a reason (`k6build.Error`, also `fmt.Errorf` with `%w`). -/
inductive GoErr where
  | sentinel (msg : String)
  | wrap (err : GoErr) (reason : GoErr)
deriving DecidableEq, Repr

/-- `k6build.NewWrappedError`. -/
def wrapErr (e reason : GoErr) : GoErr := .wrap e reason

/-- `errors.Is(e, target)` combined with `k6build.Error.Is`: the target
matches the error itself, or (for a wrapper) its head or its reason,
recursively. -/
def errIs : GoErr → GoErr → Bool
  | .sentinel m, t => decide (t = .sentinel m)
  | .wrap h r, t => decide (t = .wrap h r) || errIs h t || errIs r t

/-- The head (outermost kind) of an error: for a wrapper its head error,
for a sentinel itself.  Clients classify an error by this stable kind. -/
def errHead : GoErr → GoErr
  | .wrap h _ => h
  | e => e

/-- `builder.ErrAccessingArtifact`. -/
def errAccessingArtifact : GoErr := .sentinel "accessing artifact"

/-- `builder.ErrBuildingArtifact` (declared in `builder.go` but never used). -/
def errBuildingArtifact : GoErr := .sentinel "building artifact"

/-- `builder.ErrInvalidParameters`. -/
def errInvalidParameters : GoErr := .sentinel "invalid build parameters"

/-- `builder.ErrBuildSemverNotAllowed`. -/
def errBuildSemverNotAllowed : GoErr := .sentinel "semvers with build metadata not allowed"

/-- `store.ErrObjectNotFound`. -/
def errObjectNotFound : GoErr := .sentinel "object not found"

/-- `store.ErrCreatingObject`. -/
def errCreatingObject : GoErr := .sentinel "creating object"

/-- `store.ErrInvalidURL`. -/
def errInvalidURL : GoErr := .sentinel "invalid object URL"

/-- Modelled from the spec: `store.ErrDuplicateObject`, the distinct
duplicate-insertion error of the object-store package (§4.2); the package
root file declaring it is not under `src/`, only its s3-variant user is. -/
def errDuplicateObject : GoErr := .sentinel "duplicate object"

/-- `api.ErrInvalidRequest`. -/
def errInvalidRequest : GoErr := .sentinel "invalid request"

/-- `api.ErrBuildFailed`. -/
def errBuildFailed : GoErr := .sentinel "build failed"

/-! ## Data model (`build.go`) -/

/-- `k6build.Dependency`: a requested dependency name with its version
constraints. -/
structure Dependency where
  name : GoStr
  constraints : GoStr
deriving DecidableEq, Repr

/-- `catalog.Module`: a resolved module path and concrete version (named
`GoModule` here because `Module` is taken by Mathlib). -/
structure GoModule where
  path : GoStr
  version : GoStr
deriving DecidableEq, Repr

/-- `store.Object`: the stored-side metadata of an object. -/
structure Object where
  id : GoStr
  checksum : GoStr
  url : GoStr
deriving DecidableEq, Repr

/-- `k6build.Artifact`: the build result descriptor. -/
structure Artifact where
  id : GoStr
  url : GoStr
  dependencies : List (GoStr × GoStr)
  platform : GoStr
  checksum : GoStr
deriving DecidableEq, Repr

/-- `k6foundry.BuildInfo`: what the foundry reports about a compilation. -/
structure BuildInfo where
  platform : GoStr
  modVersions : List (GoStr × GoStr)
deriving DecidableEq, Repr

/-- Read a Go `map[string]string` (association list, most recent binding
first); a missing key yields the zero value `""`. -/
def mapGet : List (GoStr × GoStr) → GoStr → GoStr
  | [], _ => []
  | (k, v) :: rest, key => if key = k then v else mapGet rest key

/-- Write a Go `map[string]string`: the new binding shadows any older one. -/
def mapSet (m : List (GoStr × GoStr)) (k v : GoStr) : List (GoStr × GoStr) :=
  (k, v) :: m

/-! ## String ordering and the dependency sort (`builder.go:116`) -/

/-- Character comparison by code point (agrees with Go's bytewise string
order on UTF-8 text). -/
def charLt (c d : Char) : Bool := c.toNat < d.toNat

/-- Go's `<` on strings: lexicographic byte comparison. -/
def lexLt : GoStr → GoStr → Bool
  | [], [] => false
  | [], _ :: _ => true
  | _ :: _, [] => false
  | c :: cs, d :: ds => if charLt c d then true else if charLt d c then false else lexLt cs ds

/-- The comparator of `sort.Slice(deps, ...)`: ascending by name. -/
def depLt (a b : Dependency) : Prop := lexLt a.name b.name = true

instance : DecidableRel depLt := fun a b =>
  inferInstanceAs (Decidable (lexLt a.name b.name = true))

/-- The preorder induced by the comparator: `a` may precede `b` exactly when
`less(b, a)` does not hold. -/
def depLe (a b : Dependency) : Prop := lexLt b.name a.name = false

instance : DecidableRel depLe := fun a b =>
  inferInstanceAs (Decidable (lexLt b.name a.name = false))

/-- `sort.Slice(deps, func(i, j int) bool { return deps[i].Name < deps[j].Name })`.
Go's `sort.Slice` applies a deterministic comparison sort — the stable
insertion sort for slices shorter than 12 elements, which
`List.insertionSort` with the preorder `depLe` reproduces exactly; for
name-distinct inputs every correct comparison sort produces the same,
unique ascending order, so the choice is then immaterial. -/
def sortDeps (deps : List Dependency) : List Dependency :=
  List.insertionSort depLe deps

/-! ## `hasBuildMetadata` (`builder.go:221-251`)

The source matches the regular expression

  `(?<operator>[=|~|>|<|\^|>=|<=|!=]){0,1}(?:\s*)` ++
  `(?P<version>[v|V](?:0|[1-9]\d*)\.(?:0|[1-9]\d*)\.(?:0|[1-9]\d*))` ++
  `(?:[+|-|])(?P<build>(?:[0-9a-zA-Z-]+(?:\.[0-9a-zA-Z-]+)*))`

with `FindStringSubmatch` (Go `regexp`: leftmost match, Perl-style greedy
alternation).  The matcher below hand-compiles this expression.  Character
classes: `[=|~|>|<|\^|>=|<=|!=]` is the character set {=, |, ~, >, <, ^, !}
(single characters; the two-character operators are not atoms of a class);
`[v|V]` is {v, |, V}; `[+|-|]` is {+, |} (its `|-|` is the one-character
range from `|` to `|`); `[0-9a-zA-Z-]` has a literal trailing dash.
Backtracking note: each greedy repetition here is followed by a character its
repeated class can never match (`\s*` by `[v|V]`, the digit runs by `.` or
the separator, the build run by `.` or the end), so committed maximal-munch
parsing computes exactly the backtracking engine's leftmost-first match. -/

/-- Characters of the operator class. -/
def opClass (c : Char) : Bool :=
  c = '=' || c = '|' || c = '~' || c = '>' || c = '<' || c = '^' || c = '!'

/-- Characters of the `[v|V]` class opening the version group. -/
def verLead (c : Char) : Bool := c = 'v' || c = '|' || c = 'V'

/-- Characters of the separator class `[+|-|]`, i.e. {+, |}. -/
def sepClass (c : Char) : Bool := c = '+' || c = '|'

/-- ASCII decimal digit (regexp `[0-9]`). -/
def isDigitCh (c : Char) : Bool := 48 ≤ c.toNat && c.toNat ≤ 57

/-- ASCII letter (regexp `[a-zA-Z]`). -/
def isAlphaCh (c : Char) : Bool :=
  (65 ≤ c.toNat && c.toNat ≤ 90) || (97 ≤ c.toNat && c.toNat ≤ 122)

/-- Characters of the build-metadata class `[0-9a-zA-Z-]`. -/
def buildClass (c : Char) : Bool := isDigitCh c || isAlphaCh c || c = '-'

/-- Go regexp's `\s`: the whitespace characters tab, newline, form feed,
carriage return, space. -/
def reSpace (c : Char) : Bool :=
  c = ' ' || c = '\t' || c = '\n' || c = Char.ofNat 12 || c = '\r'

/-- The number group `(?:0|[1-9]\d*)`: alternation tries the literal `0`
first; otherwise a nonzero digit followed by a maximal digit run. -/
def parseNum : GoStr → Option (GoStr × GoStr)
  | [] => none
  | c :: rest =>
    if c = '0' then some (['0'], rest)
    else if 49 ≤ c.toNat && c.toNat ≤ 57 then
      some (c :: rest.takeWhile isDigitCh, rest.dropWhile isDigitCh)
    else none

/-- The version group `[v|V]num\.num\.num`; returns the captured text and
the remainder. -/
def parseVersion : GoStr → Option (GoStr × GoStr)
  | [] => none
  | c :: rest =>
    if verLead c then
      match parseNum rest with
      | some (n1, '.' :: r2) =>
        match parseNum r2 with
        | some (n2, '.' :: r4) =>
          match parseNum r4 with
          | some (n3, r5) => some (c :: (n1 ++ '.' :: (n2 ++ '.' :: n3)), r5)
          | none => none
        | _ => none
      | _ => none
    else none

/-- The dotted tail `(?:\.[0-9a-zA-Z-]+)*` of the build group, greedily. -/
def buildTail : Nat → GoStr → GoStr → (GoStr × GoStr)
  | 0, acc, r => (acc, r)
  | fuel + 1, acc, r =>
    match r with
    | '.' :: rest =>
      if rest.takeWhile buildClass = [] then (acc, r)
      else buildTail fuel (acc ++ '.' :: rest.takeWhile buildClass) (rest.dropWhile buildClass)
    | _ => (acc, r)

/-- The build group `[0-9a-zA-Z-]+(?:\.[0-9a-zA-Z-]+)*`. -/
def parseBuild (s : GoStr) : Option (GoStr × GoStr) :=
  if s.takeWhile buildClass = [] then none
  else some (buildTail (s.dropWhile buildClass).length (s.takeWhile buildClass)
    (s.dropWhile buildClass))

/-- The part of the expression after the optional operator: `\s*`, version,
separator, build.  Returns the version and build captures. -/
def matchCore (s : GoStr) : Option (GoStr × GoStr) :=
  let s1 := s.dropWhile reSpace
  match parseVersion s1 with
  | some (ver, c :: r2) =>
    if sepClass c then
      match parseBuild r2 with
      | some (b, _) => some (ver, b)
      | none => none
    else none
  | _ => none

/-- A match attempt anchored at the current position: greedily try one
operator character, falling back to the empty operator.  Returns the
operator, version and build captures. -/
def matchAt (s : GoStr) : Option (GoStr × GoStr × GoStr) :=
  match s with
  | [] => none
  | c :: rest =>
    if opClass c then
      match matchCore rest with
      | some (v, b) => some ([c], v, b)
      | none => (matchCore s).map fun p => ([], p.1, p.2)
    else (matchCore s).map fun p => ([], p.1, p.2)

/-- `constrainRe.FindStringSubmatch`: the leftmost match of the expression
(the match cannot be empty, as the version group needs a character, so
positions are tried on nonempty suffixes). -/
def findMatch : GoStr → Option (GoStr × GoStr × GoStr)
  | [] => none
  | c :: rest =>
    match matchAt (c :: rest) with
    | some m => some m
    | none => findMatch rest

/-- `builder.hasBuildMetadata`: the build-metadata tag of the constraint, or
`""` when the expression does not match, or an `ErrInvalidParameters`
wrapper when the operator is not `=`/absent or the base version is not
`v0.0.0`. -/
def hasBuildMetadata (constrain : GoStr) : Except GoErr GoStr :=
  match findMatch constrain with
  | none => .ok []
  | some (op, ver, build) =>
    if op ≠ [] ∧ op ≠ gs "=" then
      .error (wrapErr errInvalidParameters
        (.sentinel "only exact match is allowed for versions with build metadata"))
    else if ver ≠ gs "v0.0.0" then
      .error (wrapErr errInvalidParameters
        (.sentinel "version with build metadata must start with v0.0.0"))
    else .ok build

/-! ## The build coordinator (`Builder.Build`, `builder.go:104-203`)

The coordinator sees its collaborators through interfaces; they are modelled
as function parameters in `BuilderCfg`.  An arbitrary function models an
arbitrary implementation of the interface, including the replies another
process racing on a shared store could cause.  The per-id lock taken by
`lockArtifact` has no observable effect in this sequential embedding. -/

/-- The constant `k6Dep` of `builder.go`. -/
def k6DepName : GoStr := gs "k6"

/-- The constant `k6Path` of `builder.go`: the canonical core module path. -/
def k6PathName : GoStr := gs "go.k6.io/k6"

/-- Split a string on a separator character (Go `strings.Split` semantics:
the result has one part more than there are separators). -/
def splitChar (sep : Char) : GoStr → List GoStr
  | [] => [[]]
  | c :: rest =>
    if c = sep then [] :: splitChar sep rest
    else
      match splitChar sep rest with
      | [] => [[c]]
      | h :: t => (c :: h) :: t

/-- Modelled from the spec: `k6foundry.ParsePlatform` (collaborator outside
this repository): "Platform strings must be of the form `os/arch`; malformed
input → `ErrInvalidParameters`" (§4.6 step 1, §6). -/
def parsePlatform (s : GoStr) : Except GoErr (GoStr × GoStr) :=
  match splitChar '/' s with
  | [os, arch] =>
    if os = [] ∨ arch = [] then .error (.sentinel "invalid platform")
    else .ok (os, arch)
  | _ => .error (.sentinel "invalid platform")

/-- The collaborators and options a `Builder` is configured with.  `catalog`
is `catalog.Catalog.Resolve` (the catalog package is not under `src/`; per
§4.1 it is a pure function of the dependency name and constraints).
`foundry` is `k6foundry.Builder.Build`, returning the `BuildInfo` and the
bytes it wrote to the output buffer.  `storeGet`/`storePut` are the
`store.ObjectStore` methods. -/
structure BuilderCfg where
  allowBuildSemvers : Bool
  catalog : GoStr → GoStr → Except GoErr GoModule
  foundry : (GoStr × GoStr) → GoStr → List GoModule → Except GoErr (BuildInfo × List Nat)
  storeGet : GoStr → Except GoErr Object
  storePut : GoStr → List Nat → Except GoErr Object

/-- The core-resolution step of `Builder.Build` (`builder.go:124-140`):
detect the build-metadata form; if present, either reject it
(`AllowBuildSemvers` unset) or use the canonical core path with the raw tag
as version, bypassing the catalog; otherwise resolve the core through the
catalog.  Returns the core module and the build-metadata tag (`""` if the
form was not used). -/
def resolveCore (allow : Bool) (catalog : GoStr → GoStr → Except GoErr GoModule)
    (k6Constrains : GoStr) : Except GoErr (GoModule × GoStr) :=
  match hasBuildMetadata k6Constrains with
  | .error e => .error e
  | .ok buildMetadata =>
    if buildMetadata ≠ [] then
      if ¬ allow then .error (wrapErr errInvalidParameters errBuildSemverNotAllowed)
      else .ok (⟨k6PathName, buildMetadata⟩, buildMetadata)
    else
      match catalog k6DepName k6Constrains with
      | .error e => .error (wrapErr errInvalidParameters e)
      | .ok m => .ok (m, [])

/-- The extension-resolution loop of `Builder.Build` (`builder.go:142-150`):
resolve each dependency in order, accumulating the module list and the
`resolved` map. -/
def resolveDeps (catalog : GoStr → GoStr → Except GoErr GoModule) :
    List Dependency → List GoModule → List (GoStr × GoStr) →
    Except GoErr (List GoModule × List (GoStr × GoStr))
  | [], mods, resolved => .ok (mods, resolved)
  | d :: rest, mods, resolved =>
    match catalog d.name d.constraints with
    | .error e => .error (wrapErr errInvalidParameters e)
    | .ok m => resolveDeps catalog rest (mods ++ [⟨m.path, m.version⟩])
        (mapSet resolved d.name m.version)

/-- Go's `fmt.Sprintf("%s", d)` for a `k6build.Dependency` value: the struct
has no `String` method, so `fmt` prints `{Name Constraints}` — the fields
separated by one space, between braces. -/
def fmtDep (d : Dependency) : GoStr :=
  lbrace :: (d.name ++ ' ' :: d.constraints) ++ [rbrace]

/-- The fingerprint input of `Builder.Build` (`builder.go:152-158`): the
bytes accumulated in `hashData` — the platform, `":k6"` plus the core
version, then for each (sorted) dependency `":"`, its `fmt` form and its
resolved version. -/
def hashData (platform coreVer : GoStr) (deps : List Dependency)
    (resolved : List (GoStr × GoStr)) : List Nat :=
  deps.foldl (fun acc d => acc ++ utf8 (gs ":" ++ fmtDep d ++ mapGet resolved d.name))
    (utf8 platform ++ utf8 (gs ":k6" ++ coreVer))

/-- `Builder.Build` (`builder.go:104-203`): parse the platform, sort the
dependencies, resolve the core and the extensions, fingerprint, query the
store, compile on a miss, persist, and assemble the `Artifact`.  Note two
faithful quirks: a foundry failure is wrapped in `ErrAccessingArtifact`
(line 182), and every `Put` failure is wrapped in `ErrAccessingArtifact`
(line 193). -/
def Build (b : BuilderCfg) (platform k6Constrains : GoStr) (deps : List Dependency) :
    Except GoErr Artifact :=
  match parsePlatform platform with
  | .error e => .error (wrapErr errInvalidParameters e)
  | .ok buildPlatform =>
    let deps := sortDeps deps
    match resolveCore b.allowBuildSemvers b.catalog k6Constrains with
    | .error e => .error e
    | .ok (k6Mod, buildMetadata) =>
      match resolveDeps b.catalog deps [] (mapSet [] k6DepName k6Mod.version) with
      | .error e => .error e
      | .ok (mods, resolved) =>
        let id := sha1Hex (hashData platform k6Mod.version deps resolved)
        match b.storeGet id with
        | .ok artifactObject =>
          .ok ⟨id, artifactObject.url, resolved, platform, artifactObject.checksum⟩
        | .error err =>
          if ¬ errIs err errObjectNotFound then .error (wrapErr errAccessingArtifact err)
          else
            match b.foundry buildPlatform k6Mod.version mods with
            | .error e => .error (wrapErr errAccessingArtifact e)
            | .ok (buildInfo, binary) =>
              let resolved :=
                if buildMetadata ≠ [] then
                  mapSet resolved k6DepName (mapGet buildInfo.modVersions k6Mod.path)
                else resolved
              match b.storePut id binary with
              | .error e => .error (wrapErr errAccessingArtifact e)
              | .ok artifactObject =>
                .ok ⟨id, artifactObject.url, resolved, platform, artifactObject.checksum⟩

/-- The caller's `deps` slice when `Build` returns: `builder.go:116` sorts it
in place with `sort.Slice` (after the platform parse, which precedes it,
and before any other early return). -/
def depsAfterBuild (platform : GoStr) (deps : List Dependency) : List Dependency :=
  match parsePlatform platform with
  | .error _ => deps
  | .ok _ => sortDeps deps

/-! ## The file-backed object store (`store/file/file.go`)

The directory tree under the store root is modelled as an association list
from id to the stored bytes and the content of the co-located `checksum`
file. -/

/-- One stored object: the bytes of `<root>/<id>/data` and the content of
`<root>/<id>/checksum`. -/
structure FsEntry where
  data : List Nat
  checksum : GoStr
deriving DecidableEq, Repr

/-- The state of the store's directory. -/
abbrev FsState := List (GoStr × FsEntry)

/-- Directory lookup by id. -/
def fsLookup : FsState → GoStr → Option FsEntry
  | [], _ => none
  | (k, v) :: rest, id => if id = k then some v else fsLookup rest id

/-- Modelled from the spec: `util.URLFromFilePath` (package `util` is not
under `src/`): "URLs returned are `file://` URLs to the `data` file"
(§6), i.e. `file://<root>/<id>/data`. -/
def fileURL (dir id : GoStr) : GoStr :=
  gs "file://" ++ dir ++ gs "/" ++ id ++ gs "/data"

/-- `Store.Put` (`file.go:46-100`): reject an empty id or an id containing a
slash, fail if the object directory already exists, otherwise write the data
and its SHA-256 checksum and return the object metadata.  Returns the reply
and the state of the directory afterwards. -/
def fsPut (dir : GoStr) (st : FsState) (id : GoStr) (content : List Nat) :
    Except GoErr Object × FsState :=
  if id = [] then
    (.error (wrapErr errCreatingObject (.sentinel "id cannot be empty")), st)
  else if id.contains '/' then
    (.error (wrapErr errCreatingObject (.sentinel "id cannot contain a slash")), st)
  else if (fsLookup st id).isSome then
    (.error (wrapErr errCreatingObject (.sentinel "object already exists")), st)
  else
    let checksum := sha256Hex content
    (.ok ⟨id, checksum, fileURL dir id⟩, (id, ⟨content, checksum⟩) :: st)

/-- `Store.Get` (`file.go:103-129`): `ErrObjectNotFound` when the object
directory does not exist, else the metadata read from the checksum file. -/
def fsGet (dir : GoStr) (st : FsState) (id : GoStr) : Except GoErr Object :=
  match fsLookup st id with
  | none => .error (wrapErr errObjectNotFound (.sentinel "no such object"))
  | some entry => .ok ⟨id, entry.checksum, fileURL dir id⟩

/-! ## Path cleaning and `Store.Download` (`file.go:275-317`) -/

/-- The path component `..`. -/
def dotdot : GoStr := ['.', '.']

/-- One step of Go's `filepath.Clean` (unix separators), processing one
path component against the stack of output components (most recent first):
empty and `.` components vanish; `..` pops a non-`..` component, is dropped
at the root, and is kept otherwise; anything else is pushed. -/
def cleanStep (rooted : Bool) (stack : List GoStr) (comp : GoStr) : List GoStr :=
  if comp = [] ∨ comp = ['.'] then stack
  else if comp = dotdot then
    match stack with
    | [] => if rooted then [] else [dotdot]
    | top :: rest => if top = dotdot then dotdot :: stack else rest
  else comp :: stack

/-- Join path components with `/`. -/
def joinSlash : List GoStr → GoStr
  | [] => []
  | [c] => c
  | c :: rest => c ++ '/' :: joinSlash rest

/-- Go's `filepath.Clean` for unix paths: lexical simplification replacing
multiple slashes, `.` and `..` components, yielding `.` for an empty
result. -/
def goClean (p : GoStr) : GoStr :=
  let rooted := decide (p.take 1 = ['/'])
  let stack := (splitChar '/' p).foldl (cleanStep rooted) []
  let out := joinSlash stack.reverse
  let out := if rooted then '/' :: out else out
  if out = [] then ['.'] else out

/-- `filepath.IsAbs` for unix paths. -/
def isAbsPath (p : GoStr) : Bool := decide (p.take 1 = ['/'])

/-- `strings.HasPrefix(s, pre)`. -/
def goStartsWith (pre s : GoStr) : Bool := decide (s.take pre.length = pre)

/-- `Store.sanitizePath` (`file.go:309-317`): clean the path, then require
it to be absolute and to have the store root as a (string) prefix. -/
def sanitizePath (dir path : GoStr) : Except GoErr GoStr :=
  let path := goClean path
  if ¬ isAbsPath path ∨ ¬ goStartsWith dir path then
    .error (wrapErr errInvalidURL (.sentinel "invalid path"))
  else .ok path

/-- `Store.Download` (`file.go:275-307`) on the file scheme: sanitize the
URL's path and open it.  The argument pair is the scheme and path of
`url.Parse(object.URL)` (for a URL `file:///p` these are `file` and `/p`;
`util.URLToFilePath`, not under `src/`, returns the path of a file URL).
The `.ok` result is the path passed to `os.Open`; a scheme other than
`file` is rejected with `ErrInvalidURL`. -/
def download (dir : GoStr) (scheme path : GoStr) : Except GoErr GoStr :=
  if scheme = gs "file" then sanitizePath dir path
  else .error (wrapErr errInvalidURL (.sentinel "unsupported schema"))

/-! ## The HTTP request surface (`server/server.go:52-93`) -/

/-- `api.BuildRequest`: the decoded body of a build request. -/
structure BuildRequest where
  platform : GoStr
  k6Constrains : GoStr
  dependencies : List Dependency
deriving DecidableEq, Repr

/-- `api.BuildResponse`: the response body; `artifact` is a value field
(zero-valued when unset, like the Go struct), `error` is the error
envelope. -/
structure BuildResponse where
  artifact : Artifact
  error : Option GoErr
deriving DecidableEq, Repr

/-- The zero `k6build.Artifact` value. -/
def emptyArtifact : Artifact := ⟨[], [], [], [], []⟩

/-- `APIServer.Build`: decode the body (`decoded` is the result of
`json.Decode`, `none` for a malformed body), call the build service, and
reply — status 400 with an `ErrInvalidRequest` envelope when decoding
failed, status 200 with an `ErrBuildFailed` envelope when the service
failed, status 200 with the artifact otherwise.  Returns the HTTP status
and the encoded response body. -/
def handleBuild (decoded : Option BuildRequest)
    (srv : BuildRequest → Except GoErr Artifact) : Nat × BuildResponse :=
  match decoded with
  | none => (400, ⟨emptyArtifact, some (wrapErr errInvalidRequest (.sentinel "decode error"))⟩)
  | some req =>
    match srv req with
    | .error e => (200, ⟨emptyArtifact, some (wrapErr errBuildFailed e)⟩)
    | .ok artifact => (200, ⟨artifact, none⟩)

/-! ## Claim-side definitions

The two definitions below follow the words of claims C2 and C7 (not the
source); each is compared against the source-derived behaviour. -/

/-- The serialisation claimed by C2 (spec §4.4): the platform, `":k6"` plus
the core version, then for each dependency (name, constraints, resolved
version) the doubled form `":" + name + constraints + ":" + name +
resolvedVersion`. -/
def claimSerial (platform coreVer : GoStr) (entries : List (GoStr × GoStr × GoStr)) : GoStr :=
  platform ++ gs ":k6" ++ coreVer ++
    (entries.map fun e => gs ":" ++ e.1 ++ e.2.1 ++ gs ":" ++ e.1 ++ e.2.2).flatten

/-- Path containment as claimed by C7: the path is the root itself or lies
in the directory subtree under the root. -/
def containedIn (root p : GoStr) : Bool :=
  decide (p = root) || goStartsWith (root ++ ['/']) p

/-- The serialisation the source actually hashes, in flat form (for the
amended C2): the platform, `":k6"` plus the core version, then for each
dependency `":"`, its Go `fmt` struct form and its resolved version. -/
def codeSerial (platform coreVer : GoStr) (entries : List (Dependency × GoStr)) : GoStr :=
  platform ++ gs ":k6" ++ coreVer ++
    (entries.map fun e => gs ":" ++ fmtDep e.1 ++ e.2).flatten

/-- The kind a caller observes on a failed call: the head of the returned
error; `none` for a successful call. -/
def errKindOf {α : Type} : Except GoErr α → Option GoErr
  | .error e => some (errHead e)
  | .ok _ => none

/-- The version the catalog resolves a dependency to (`""` on failure);
used to state theorems about the fingerprint input. -/
def catVer (catalog : GoStr → GoStr → Except GoErr GoModule) (d : Dependency) : GoStr :=
  match catalog d.name d.constraints with
  | .ok m => m.version
  | .error _ => []

/-- The core version `Build` fingerprints with: the version of the module
`resolveCore` yields (`""` on failure). -/
def coreVerOf (allow : Bool) (catalog : GoStr → GoStr → Except GoErr GoModule)
    (k6Constrains : GoStr) : GoStr :=
  match resolveCore allow catalog k6Constrains with
  | .ok (m, _) => m.version
  | .error _ => []

/-- Whether a string starts with a decimal digit. -/
def headIsDigit : GoStr → Bool
  | [] => false
  | c :: _ => isDigitCh c

instance {ε α : Type} [DecidableEq ε] [DecidableEq α] : DecidableEq (Except ε α) := fun a b =>
  match a, b with
  | .ok x, .ok y =>
    if h : x = y then .isTrue (by rw [h]) else .isFalse (by intro hh; cases hh; exact h rfl)
  | .ok _, .error _ => .isFalse (by intro hh; cases hh)
  | .error _, .ok _ => .isFalse (by intro hh; cases hh)
  | .error x, .error y =>
    if h : x = y then .isTrue (by rw [h]) else .isFalse (by intro hh; cases hh; exact h rfl)

/-! ## Concrete collaborator instances

Used by the witness and counterexample theorems: a catalog that resolves
every dependency (to a module whose version is the constraint string, in
the style of an exact-match catalog), a foundry that reports the modules it
was given and writes fixed bytes, and store replies for the hit, miss and
failure cases. -/

/-- A pure catalog: path `example.com/<name>`, version as constrained. -/
def witCatalog : GoStr → GoStr → Except GoErr GoModule := fun name constr =>
  .ok ⟨gs "example.com/" ++ name, constr⟩

/-- A foundry that succeeds, reporting the requested module versions and
writing the bytes `BINARY`. -/
def witFoundry : (GoStr × GoStr) → GoStr → List GoModule → Except GoErr (BuildInfo × List Nat) :=
  fun _ _ mods => .ok (⟨gs "linux/amd64", mods.map fun m => (m.path, m.version)⟩, utf8 (gs "BINARY"))

/-- A store whose `Get` always misses. -/
def witGet : GoStr → Except GoErr Object := fun _ =>
  .error (wrapErr errObjectNotFound (.sentinel "miss"))

/-- A store whose `Put` succeeds, echoing the id and content checksum. -/
def witPut : GoStr → List Nat → Except GoErr Object := fun id bytes =>
  .ok ⟨id, sha256Hex bytes, fileURL (gs "/store") id⟩

/-- A builder over the above collaborators, build-metadata semvers
allowed. -/
def witCfg : BuilderCfg := ⟨true, witCatalog, witFoundry, witGet, witPut⟩

/-- `witCfg` with a `Put` that reports a duplicate object, as a racing peer
on a shared store causes. -/
def dupPutCfg : BuilderCfg :=
  { witCfg with storePut := fun _ _ => .error (wrapErr errDuplicateObject (.sentinel "dup")) }

/-- `witCfg` with a failing foundry. -/
def failFoundryCfg : BuilderCfg :=
  { witCfg with foundry := fun _ _ _ => .error (.sentinel "compile error") }

/-- Sanity check against the FIPS 180-4 test vector for SHA-1("abc"). -/
theorem sha1Hex_abc : sha1Hex (utf8 (gs "abc")) = gs "a9993e364706816aba3e25717850c26c9cd0d89d" := by
  decide

/-- Sanity check against the FIPS 180-4 test vector for SHA-256("abc"). -/
theorem sha256Hex_abc :
    sha256Hex (utf8 (gs "abc")) = gs "ba7816bf8f01cfea414140de5dae2223b00361a396177a9cb410ff61f20015ad" := by
  decide

/-- Sanity check: SHA-1 of the empty message (two padding edge cases live in
`shaPad`; the empty input exercises the zero-length one). -/
theorem sha1Hex_empty : sha1Hex [] = gs "da39a3ee5e6b4b0d3255bfef95601890afd80709" := by
  decide

/-! # Theorems

Shared helper lemmas first, then one theorem (with witness or
counterexample where required) per specification claim. -/

/-! ## Order lemmas for Go string comparison -/

theorem charLt_asymm {c d : Char} (h : charLt c d = true) : charLt d c = false := by
  simp only [charLt, decide_eq_true_eq] at h
  simp only [charLt, decide_eq_false_iff_not]
  omega

theorem charLt_trans {c d e : Char} (h1 : charLt c d = true) (h2 : charLt d e = true) :
    charLt c e = true := by
  simp only [charLt, decide_eq_true_eq] at h1 h2 ⊢
  omega

theorem charLt_total_eq {c d : Char} (h1 : charLt c d = false) (h2 : charLt d c = false) :
    c = d := by
  simp only [charLt, decide_eq_false_iff_not] at h1 h2
  have : c.toNat = d.toNat := by omega
  exact Char.ofNat_toNat c ▸ Char.ofNat_toNat d ▸ congrArg Char.ofNat this

theorem lexLt_asymm : ∀ {a b : GoStr}, lexLt a b = true → lexLt b a = false
  | [], b => by cases b <;> simp [lexLt]
  | _ :: _, [] => by simp [lexLt]
  | c :: cs, d :: ds => by
    intro h
    simp only [lexLt] at h ⊢
    cases hcd : charLt c d with
    | true => simp [hcd, charLt_asymm hcd]
    | false =>
      cases hdc : charLt d c with
      | true => simp [hcd, hdc] at h
      | false =>
        simp only [hcd, hdc, Bool.false_eq_true, if_false] at h ⊢
        exact lexLt_asymm h

theorem lexLt_trans : ∀ {a b c : GoStr},
    lexLt a b = true → lexLt b c = true → lexLt a c = true
  | [], b, c => by cases b <;> cases c <;> simp [lexLt]
  | _ :: _, [], _ => by simp [lexLt]
  | _ :: _, _ :: _, [] => by simp [lexLt]
  | x :: xs, y :: ys, z :: zs => by
    intro h1 h2
    simp only [lexLt] at h1 h2 ⊢
    cases hxy : charLt x y with
    | true =>
      cases hyz : charLt y z with
      | true => simp [charLt_trans hxy hyz]
      | false =>
        simp only [hyz, Bool.false_eq_true, if_false] at h2
        cases hzy : charLt z y with
        | true => simp [hzy] at h2
        | false =>
          have : y = z := charLt_total_eq hyz hzy
          subst this
          simp [hxy]
    | false =>
      simp only [hxy, Bool.false_eq_true, if_false] at h1
      cases hyx : charLt y x with
      | true => simp [hyx] at h1
      | false =>
        have hx : x = y := charLt_total_eq hxy hyx
        subst hx
        simp only [hyx, Bool.false_eq_true, if_false] at h1
        cases hxz : charLt x z with
        | true => simp [hxz]
        | false =>
          simp only [hxz, Bool.false_eq_true, if_false] at h2 ⊢
          cases hzx : charLt z x with
          | true => simp [hzx] at h2
          | false =>
            simp only [hzx, Bool.false_eq_true, if_false] at h2 ⊢
            exact lexLt_trans h1 h2

theorem lexLt_total_eq : ∀ {a b : GoStr}, lexLt a b = false → lexLt b a = false → a = b
  | [], [] => by simp
  | [], _ :: _ => by simp [lexLt]
  | _ :: _, [] => by simp [lexLt]
  | c :: cs, d :: ds => by
    intro h1 h2
    simp only [lexLt] at h1 h2
    cases hcd : charLt c d with
    | true => simp [hcd] at h1
    | false =>
      cases hdc : charLt d c with
      | true => simp [hdc] at h2
      | false =>
        have hc : c = d := charLt_total_eq hcd hdc
        subst hc
        simp only [hcd, Bool.false_eq_true, if_false] at h1 h2
        rw [lexLt_total_eq h1 h2]

/-! ## The dependency sort: permutation, sortedness, uniqueness -/

instance : IsTotal Dependency depLe :=
  ⟨fun a b => by
    simp only [depLe]
    cases h : lexLt b.name a.name with
    | false => exact Or.inl rfl
    | true => exact Or.inr (lexLt_asymm h)⟩

instance : IsTrans Dependency depLe :=
  ⟨fun a b c hab hbc => by
    simp only [depLe] at hab hbc ⊢
    cases h : lexLt c.name a.name with
    | false => rfl
    | true =>
      cases hab' : lexLt a.name b.name with
      | true =>
        have hcb := lexLt_trans h hab'
        rw [hbc] at hcb
        exact absurd hcb (by simp)
      | false =>
        have hnames : a.name = b.name := lexLt_total_eq hab' hab
        rw [hnames] at h
        rw [hbc] at h
        exact absurd h (by simp)⟩

instance : IsAntisymm Dependency depLt :=
  ⟨fun a b h1 h2 => by
    have := lexLt_asymm (a := a.name) (b := b.name) h1
    rw [h2] at this
    exact absurd this (by simp)⟩

theorem perm_sortDeps (l : List Dependency) : List.Perm (sortDeps l) l :=
  List.perm_insertionSort depLe l

theorem sorted_sortDeps (l : List Dependency) : List.Sorted depLe (sortDeps l) :=
  List.sorted_insertionSort depLe l

theorem depLt_of_depLe_ne {a b : Dependency} (h1 : depLe a b) (h2 : a.name ≠ b.name) :
    depLt a b := by
  simp only [depLe] at h1
  simp only [depLt]
  cases h : lexLt a.name b.name with
  | true => rfl
  | false => exact absurd (lexLt_total_eq h h1) h2

theorem sorted_strict_sortDeps (l : List Dependency)
    (hl : (l.map Dependency.name).Nodup) : List.Sorted depLt (sortDeps l) := by
  have hs : List.Sorted depLe (sortDeps l) := sorted_sortDeps l
  have hpermmap : List.Perm ((sortDeps l).map Dependency.name) (l.map Dependency.name) :=
    (perm_sortDeps l).map Dependency.name
  have hnd2 : ((sortDeps l).map Dependency.name).Nodup := hpermmap.nodup_iff.mpr hl
  have hpw : (sortDeps l).Pairwise (fun a b => a.name ≠ b.name) := List.pairwise_map.mp hnd2
  exact (hs.and hpw).imp fun h => depLt_of_depLe_ne h.1 h.2

/-- Sorting is invariant under permutation, for name-distinct dependency
lists: the ascending order is then unique, so it is also independent of
which (correct) sorting algorithm `sort.Slice` applies. -/
theorem sortDeps_eq_of_perm {deps deps' : List Dependency} (hperm : deps.Perm deps')
    (hnd : (deps.map Dependency.name).Nodup) : sortDeps deps = sortDeps deps' := by
  have hnd' : (deps'.map Dependency.name).Nodup :=
    (hperm.map Dependency.name).nodup_iff.mp hnd
  exact List.eq_of_perm_of_sorted
    ((perm_sortDeps deps).trans (hperm.trans (perm_sortDeps deps').symm))
    (sorted_strict_sortDeps deps hnd) (sorted_strict_sortDeps deps' hnd')

/-- `Build` reads its `deps` argument only through `sortDeps`. -/
theorem Build_congr_sort (cfg : BuilderCfg) (platform k6c : GoStr)
    {deps deps' : List Dependency} (h : sortDeps deps = sortDeps deps') :
    Build cfg platform k6c deps = Build cfg platform k6c deps' := by
  unfold Build
  rw [h]

/-! ## Claim C1 — fingerprint order-insensitivity -/

/-- C1, as stated, is false: for a dependency list with two entries of equal
name and different constraints, the comparator `deps[i].Name < deps[j].Name`
does not separate them, the (stable, deterministic) sort keeps their input
order, and the constraint text enters the fingerprint input — so the two
permutations yield different serialisations and different SHA-1 ids, yet
both builds succeed.  (Any deterministic comparison sort behaves this way:
with all comparator answers `false`, it applies the same positional
permutation to both inputs.) -/
theorem c1_counterexample :
    ((Build witCfg (gs "linux/amd64") (gs "v0.1.0")
        [⟨gs "ext", gs "v0.1.0"⟩, ⟨gs "ext", gs "v0.2.0"⟩]).isOk = true) ∧
    ((Build witCfg (gs "linux/amd64") (gs "v0.1.0")
        [⟨gs "ext", gs "v0.2.0"⟩, ⟨gs "ext", gs "v0.1.0"⟩]).isOk = true) ∧
    (Build witCfg (gs "linux/amd64") (gs "v0.1.0")
        [⟨gs "ext", gs "v0.1.0"⟩, ⟨gs "ext", gs "v0.2.0"⟩]).map Artifact.id ≠
      (Build witCfg (gs "linux/amd64") (gs "v0.1.0")
        [⟨gs "ext", gs "v0.2.0"⟩, ⟨gs "ext", gs "v0.1.0"⟩]).map Artifact.id := by
  refine ⟨by decide, by decide, by decide⟩

/-- C1 (amended): for every platform, core constraint and dependency list
whose dependency names are pairwise distinct, every permutation of the list
yields a build with the same artifact id (indeed the very same result):
the sort then has a unique ascending outcome, and `Build` reads the list
only through the sort. -/
theorem c1_fingerprint_order_insensitive (cfg : BuilderCfg) (platform k6c : GoStr)
    (deps deps' : List Dependency) (hperm : deps.Perm deps')
    (hnd : (deps.map Dependency.name).Nodup) :
    (Build cfg platform k6c deps).map Artifact.id =
      (Build cfg platform k6c deps').map Artifact.id := by
  rw [Build_congr_sort cfg platform k6c (sortDeps_eq_of_perm hperm hnd)]

/-- Witness for C1 at a concrete input: two name-distinct dependencies in
the two orders. -/
theorem c1_witness :
    (List.Perm [(⟨gs "k6/x/ext", gs "v0.1.0"⟩ : Dependency), ⟨gs "k6/x/ext2", gs "v0.1.0"⟩]
        [⟨gs "k6/x/ext2", gs "v0.1.0"⟩, ⟨gs "k6/x/ext", gs "v0.1.0"⟩]) ∧
    (([(⟨gs "k6/x/ext", gs "v0.1.0"⟩ : Dependency), ⟨gs "k6/x/ext2", gs "v0.1.0"⟩].map
        Dependency.name).Nodup) ∧
    (Build witCfg (gs "linux/amd64") (gs "v0.1.0")
        [⟨gs "k6/x/ext", gs "v0.1.0"⟩, ⟨gs "k6/x/ext2", gs "v0.1.0"⟩]).map Artifact.id =
      (Build witCfg (gs "linux/amd64") (gs "v0.1.0")
        [⟨gs "k6/x/ext2", gs "v0.1.0"⟩, ⟨gs "k6/x/ext", gs "v0.1.0"⟩]).map Artifact.id :=
  ⟨by decide, by decide,
    c1_fingerprint_order_insensitive witCfg (gs "linux/amd64") (gs "v0.1.0")
      [⟨gs "k6/x/ext", gs "v0.1.0"⟩, ⟨gs "k6/x/ext2", gs "v0.1.0"⟩]
      [⟨gs "k6/x/ext2", gs "v0.1.0"⟩, ⟨gs "k6/x/ext", gs "v0.1.0"⟩]
      (by decide) (by decide)⟩

/-! ## Claim C10 — the caller's dependency list -/

/-- C10, as stated, is false: `builder.go:116` sorts the caller's slice in
place (`sort.Slice` on `deps`, no copy), so after `Build` returns an
unsorted argument no longer holds its elements in the original order. -/
theorem c10_counterexample :
    depsAfterBuild (gs "linux/amd64") [⟨gs "b", gs "*"⟩, ⟨gs "a", gs "*"⟩] ≠
      [⟨gs "b", gs "*"⟩, ⟨gs "a", gs "*"⟩] := by
  decide

/-- C10 (amended): `Build` sorts the caller's slice in place: when `Build`
returns, the slice holds the same elements as a permutation, ascending by
name whenever the platform parse (which precedes the sort) succeeded. -/
theorem c10_deps_sorted_in_place (platform : GoStr) (deps : List Dependency) :
    List.Perm (depsAfterBuild platform deps) deps ∧
    (∀ bp, parsePlatform platform = Except.ok bp →
      List.Sorted depLe (depsAfterBuild platform deps)) := by
  unfold depsAfterBuild
  cases h : parsePlatform platform with
  | error e =>
    simp only
    exact ⟨List.Perm.refl _, fun bp hbp => by cases hbp⟩
  | ok bp =>
    simp only
    exact ⟨perm_sortDeps deps, fun _ _ => sorted_sortDeps deps⟩

/-- Witness for C10 at a concrete input. -/
theorem c10_witness :
    List.Perm (depsAfterBuild (gs "linux/amd64") [⟨gs "b", gs "*"⟩, ⟨gs "a", gs "*"⟩])
        [⟨gs "b", gs "*"⟩, ⟨gs "a", gs "*"⟩] ∧
    List.Sorted depLe (depsAfterBuild (gs "linux/amd64") [⟨gs "b", gs "*"⟩, ⟨gs "a", gs "*"⟩]) :=
  ⟨(c10_deps_sorted_in_place (gs "linux/amd64") [⟨gs "b", gs "*"⟩, ⟨gs "a", gs "*"⟩]).1,
    (c10_deps_sorted_in_place (gs "linux/amd64") [⟨gs "b", gs "*"⟩, ⟨gs "a", gs "*"⟩]).2
      (gs "linux", gs "amd64") (by decide)⟩

/-! ## Claim C3 — `Put` failures in the persist step -/

/-- C3, as stated, is false: with a store whose `Put` reports
`ErrDuplicateObject` (as a racing peer causes), `Build` does not treat the
build as a success and does not re-query `Get` — it fails, wrapping the
`Put` error in `ErrAccessingArtifact` (`builder.go:191-194` wraps every
`Put` error this way). -/
theorem c3_counterexample :
    ((Build dupPutCfg (gs "linux/amd64") (gs "v0.1.0") []).isOk = false) ∧
    errKindOf (Build dupPutCfg (gs "linux/amd64") (gs "v0.1.0") []) =
      some errAccessingArtifact := by
  refine ⟨by decide, by decide⟩

/-- C3 (amended): every `Put` failure — `ErrDuplicateObject` included —
makes `Build` fail with `ErrAccessingArtifact` wrapping the `Put` error;
there is no duplicate-object recovery and no re-query of `Get`. -/
theorem c3_put_failure_accessing_artifact (cfg : BuilderCfg) (platform k6c : GoStr)
    (deps : List Dependency) (bp : GoStr × GoStr) (k6Mod : GoModule) (tag : GoStr)
    (mods : List GoModule) (resolved : List (GoStr × GoStr)) (ge : GoErr)
    (bi : BuildInfo) (bin : List Nat) (e : GoErr)
    (hplat : parsePlatform platform = .ok bp)
    (hcore : resolveCore cfg.allowBuildSemvers cfg.catalog k6c = .ok (k6Mod, tag))
    (hdeps : resolveDeps cfg.catalog (sortDeps deps) [] (mapSet [] k6DepName k6Mod.version) =
      .ok (mods, resolved))
    (hget : cfg.storeGet (sha1Hex (hashData platform k6Mod.version (sortDeps deps) resolved)) =
      .error ge)
    (hmiss : errIs ge errObjectNotFound = true)
    (hfoundry : cfg.foundry bp k6Mod.version mods = .ok (bi, bin))
    (hput : cfg.storePut (sha1Hex (hashData platform k6Mod.version (sortDeps deps) resolved)) bin =
      .error e) :
    Build cfg platform k6c deps = .error (wrapErr errAccessingArtifact e) := by
  simp only [Build, hplat, hcore, hdeps, hget, hmiss, hfoundry, hput, not_true, if_false,
    Bool.true_eq_false, ite_false]

/-- Witness for C3 at a concrete input: a Put reporting a duplicate. -/
theorem c3_witness :
    Build dupPutCfg (gs "linux/amd64") (gs "v0.1.0") [] =
      .error (wrapErr errAccessingArtifact (wrapErr errDuplicateObject (.sentinel "dup"))) :=
  c3_put_failure_accessing_artifact dupPutCfg (gs "linux/amd64") (gs "v0.1.0") []
    (gs "linux", gs "amd64") ⟨gs "example.com/k6", gs "v0.1.0"⟩ [] []
    [(gs "k6", gs "v0.1.0")] (wrapErr errObjectNotFound (.sentinel "miss"))
    ⟨gs "linux/amd64", []⟩ (utf8 (gs "BINARY"))
    (wrapErr errDuplicateObject (.sentinel "dup"))
    (by decide) (by decide) (by decide) (by decide) (by decide) (by decide) (by decide)

/-! ## Claim C4 — the error kind of a failed compile -/

/-- C4's claim is right about the intent and wrong about the code: a foundry
failure makes `Build` fail with `ErrAccessingArtifact` wrapping the
foundry's diagnostic (`builder.go:180-183`), not `ErrBuildingArtifact` —
which `builder.go:32` declares and nothing ever uses.  Evaluated at a
concrete failing input. -/
theorem c4_foundry_error_kind :
    (Build failFoundryCfg (gs "linux/amd64") (gs "v0.1.0") [] =
      .error (wrapErr errAccessingArtifact (.sentinel "compile error"))) ∧
    errKindOf (Build failFoundryCfg (gs "linux/amd64") (gs "v0.1.0") []) =
      some errAccessingArtifact ∧
    errIs (wrapErr errAccessingArtifact (.sentinel "compile error")) errBuildingArtifact =
      false := by
  refine ⟨by decide, by decide, by decide⟩

/-! ## Claim C6 — duplicate insertion in the file store -/

/-- C6, as stated, is false in one respect: the file store's duplicate `Put`
does fail and does leave the object unchanged, but with
`ErrCreatingObject` (`file.go:61-63`, message "object already exists") —
not with `ErrDuplicateObject`, which `errors.Is` does not recognise in the
reply (the store's own test expects `ErrCreatingObject` here). -/
theorem c6_counterexample :
    (fsPut (gs "/store") ((fsPut (gs "/store") [] (gs "object") (utf8 (gs "content"))).2)
        (gs "object") (utf8 (gs "new content"))).1 =
      .error (wrapErr errCreatingObject (.sentinel "object already exists")) ∧
    errIs (wrapErr errCreatingObject (.sentinel "object already exists")) errDuplicateObject =
      false := by
  refine ⟨by decide, by decide⟩

/-- C6 (amended): after a successful `Put(id, content)`, every subsequent
`Put` of the same id fails with `ErrCreatingObject` ("object already
exists") and leaves the store — in particular the stored bytes and
checksum of `id` — unchanged. -/
theorem c6_duplicate_put_rejected (dir : GoStr) (st st' : FsState) (id : GoStr)
    (content content' : List Nat) (obj : Object)
    (h : fsPut dir st id content = (.ok obj, st')) :
    errKindOf (fsPut dir st' id content').1 = some errCreatingObject ∧
    (fsPut dir st' id content').2 = st' ∧
    fsLookup st' id = some ⟨content, sha256Hex content⟩ := by
  unfold fsPut at h ⊢
  split at h
  next => simp at h
  next hid =>
    split at h
    next => simp at h
    next hslash =>
      split at h
      next => simp at h
      next hdup =>
        simp only [Prod.mk.injEq, Except.ok.injEq] at h
        obtain ⟨hobj, hst⟩ := h
        subst hst
        have hl : fsLookup ((id, ⟨content, sha256Hex content⟩) :: st) id =
            some ⟨content, sha256Hex content⟩ := by simp [fsLookup]
        rw [if_neg hid, if_neg hslash, if_pos (by simp [hl])]
        exact ⟨rfl, rfl, hl⟩

/-- Witness for C6 at a concrete input. -/
theorem c6_witness :
    errKindOf (fsPut (gs "/store")
        [(gs "object", ⟨utf8 (gs "content"), sha256Hex (utf8 (gs "content"))⟩)]
        (gs "object") (utf8 (gs "new content"))).1 = some errCreatingObject ∧
    (fsPut (gs "/store")
        [(gs "object", ⟨utf8 (gs "content"), sha256Hex (utf8 (gs "content"))⟩)]
        (gs "object") (utf8 (gs "new content"))).2 =
      [(gs "object", ⟨utf8 (gs "content"), sha256Hex (utf8 (gs "content"))⟩)] ∧
    fsLookup [(gs "object", ⟨utf8 (gs "content"), sha256Hex (utf8 (gs "content"))⟩)]
        (gs "object") = some ⟨utf8 (gs "content"), sha256Hex (utf8 (gs "content"))⟩ :=
  c6_duplicate_put_rejected (gs "/store") [] _ (gs "object") (utf8 (gs "content"))
    (utf8 (gs "new content"))
    ⟨gs "object", sha256Hex (utf8 (gs "content")), fileURL (gs "/store") (gs "object")⟩
    (by decide)

/-! ## Claim C7 — traversal safety of the local store's Download -/

/-- C7, as stated, is false: for root `/data/store` and the file URL path
`/data/storeevil/x`, the cleaned path is absolute and not contained in the
root directory, yet `Download` accepts it and opens it — the containment
check is `strings.HasPrefix` on the raw path string (`file.go:312`), which
a sibling directory whose name extends the root string passes. -/
theorem c7_counterexample :
    download (gs "/data/store") (gs "file") (gs "/data/storeevil/x") =
      .ok (gs "/data/storeevil/x") ∧
    isAbsPath (goClean (gs "/data/storeevil/x")) = true ∧
    containedIn (gs "/data/store") (goClean (gs "/data/storeevil/x")) = false := by
  refine ⟨by decide, by decide, by decide⟩

/-- C7 (amended): `Download` (file scheme) rejects with `ErrInvalidURL`
exactly those URLs whose cleaned path is not absolute or does not have the
root as a string prefix; when it proceeds, the path it opens is the cleaned
path and extends the root string (but may lie outside the root directory,
as the counterexample shows). -/
theorem c7_download_sanitizes (dir path : GoStr) :
    (errKindOf (download dir (gs "file") path) = some errInvalidURL ↔
      ¬ (isAbsPath (goClean path) = true ∧ goStartsWith dir (goClean path) = true)) ∧
    (∀ p', download dir (gs "file") path = .ok p' →
      p' = goClean path ∧ goStartsWith dir p' = true) := by
  unfold download sanitizePath
  rw [if_pos rfl]
  constructor
  · by_cases h1 : isAbsPath (goClean path) = true <;>
      by_cases h2 : goStartsWith dir (goClean path) = true <;>
      simp [h1, h2, errKindOf, errHead, wrapErr]
  · intro p' hp
    by_cases h1 : isAbsPath (goClean path) = true <;>
      by_cases h2 : goStartsWith dir (goClean path) = true <;>
      simp [h1, h2] at hp
    exact ⟨hp.symm, hp ▸ h2⟩

/-- Witness for C7 at concrete inputs: a `..`-traversal URL is rejected, a
well-formed URL under the root is opened at its cleaned path. -/
theorem c7_witness :
    errKindOf (download (gs "/data/store") (gs "file")
        (gs "/data/store/../../etc/passwd")) = some errInvalidURL ∧
    (gs "/data/store/object/data" = goClean (gs "/data/store/object/data") ∧
      goStartsWith (gs "/data/store") (gs "/data/store/object/data") = true) :=
  ⟨(c7_download_sanitizes (gs "/data/store") (gs "/data/store/../../etc/passwd")).1.mpr
      (by decide),
    (c7_download_sanitizes (gs "/data/store") (gs "/data/store/object/data")).2
      (gs "/data/store/object/data") (by decide)⟩

/-! ## Claim C9 — the build endpoint's status policy -/

/-- C9: a body that fails to decode is answered 400 with the error envelope
populated; a well-formed request whose build fails at domain level is
answered 200 with the error populated and the artifact zero-valued; a
successful build is answered 200 with the artifact and no error; and in
every reply at most one of artifact and error is populated. -/
theorem c9_status_policy (srv : BuildRequest → Except GoErr Artifact) :
    ((handleBuild none srv).1 = 400 ∧ (handleBuild none srv).2.error.isSome = true) ∧
    (∀ req e, srv req = .error e →
      handleBuild (some req) srv = (200, ⟨emptyArtifact, some (wrapErr errBuildFailed e)⟩)) ∧
    (∀ req a, srv req = .ok a → handleBuild (some req) srv = (200, ⟨a, none⟩)) ∧
    (∀ decoded, (handleBuild decoded srv).2.error.isSome = true →
      (handleBuild decoded srv).2.artifact = emptyArtifact) := by
  refine ⟨⟨rfl, rfl⟩, ?_, ?_, ?_⟩
  · intro req e h
    simp [handleBuild, h]
  · intro req a h
    simp [handleBuild, h]
  · intro decoded h
    cases decoded with
    | none => rfl
    | some req =>
      cases hs : srv req with
      | error e => simp [handleBuild, hs]
      | ok a => simp [handleBuild, hs] at h

/-- Witness for C9 at concrete inputs: a failing and a succeeding build
service behind the handler. -/
theorem c9_witness :
    (((handleBuild none (fun _ => .error (.sentinel "boom"))).1 = 400 ∧
      (handleBuild none (fun _ => .error (.sentinel "boom"))).2.error.isSome = true)) ∧
    handleBuild (some ⟨gs "linux/amd64", gs "v0.1.0", []⟩)
        (fun _ => .error (.sentinel "boom")) =
      (200, ⟨emptyArtifact, some (wrapErr errBuildFailed (.sentinel "boom"))⟩) ∧
    handleBuild (some ⟨gs "linux/amd64", gs "v0.1.0", []⟩)
        (fun _ => .ok (⟨gs "abc", gs "url", [], gs "linux/amd64", gs "sum"⟩ : Artifact)) =
      (200, ⟨⟨gs "abc", gs "url", [], gs "linux/amd64", gs "sum"⟩, none⟩) ∧
    (handleBuild (some ⟨gs "linux/amd64", gs "v0.1.0", []⟩)
        (fun _ => .error (.sentinel "boom"))).2.artifact = emptyArtifact :=
  ⟨(c9_status_policy (fun _ => .error (.sentinel "boom"))).1,
    (c9_status_policy (fun _ => .error (.sentinel "boom"))).2.1
      ⟨gs "linux/amd64", gs "v0.1.0", []⟩ (.sentinel "boom") rfl,
    (c9_status_policy (fun _ => .ok (⟨gs "abc", gs "url", [], gs "linux/amd64", gs "sum"⟩ :
        Artifact))).2.2.1 ⟨gs "linux/amd64", gs "v0.1.0", []⟩ _ rfl,
    (c9_status_policy (fun _ => .error (.sentinel "boom"))).2.2.2
      (some ⟨gs "linux/amd64", gs "v0.1.0", []⟩) (by decide)⟩

/-! ## Claim C2 — the fingerprint serialisation -/

theorem utf8_append (a b : GoStr) : utf8 (a ++ b) = utf8 a ++ utf8 b := by
  simp [utf8]

theorem utf8_flatten (l : List GoStr) : utf8 l.flatten = (l.map utf8).flatten := by
  induction l with
  | nil => rfl
  | cons x xs ih => simp [utf8_append, ih]

theorem mapGet_mapSet_self (m : List (GoStr × GoStr)) (k v : GoStr) :
    mapGet (mapSet m k v) k = v := by
  simp [mapGet, mapSet]

theorem mapGet_mapSet_ne (m : List (GoStr × GoStr)) {n k : GoStr} (v : GoStr) (h : n ≠ k) :
    mapGet (mapSet m k v) n = mapGet m n := by
  simp [mapGet, mapSet, h]

theorem foldl_hashData (resolved : List (GoStr × GoStr)) :
    ∀ (deps : List Dependency) (acc : List Nat),
      deps.foldl (fun acc d => acc ++ utf8 (gs ":" ++ fmtDep d ++ mapGet resolved d.name)) acc =
        acc ++ ((deps.map fun d => utf8 (gs ":" ++ fmtDep d ++ mapGet resolved d.name)).flatten)
  | [], acc => by simp
  | d :: rest, acc => by
    simp only [List.foldl_cons, List.map_cons, List.flatten_cons]
    rw [foldl_hashData resolved rest]
    simp [List.append_assoc]

/-- The byte sequence `Build` hashes is the UTF-8 encoding of the flat
serialisation, each dependency paired with the version the `resolved` map
holds for its name. -/
theorem hashData_eq_codeSerial (platform coreVer : GoStr) (deps : List Dependency)
    (resolved : List (GoStr × GoStr)) :
    hashData platform coreVer deps resolved =
      utf8 (codeSerial platform coreVer (deps.map fun d => (d, mapGet resolved d.name))) := by
  unfold hashData codeSerial
  rw [foldl_hashData]
  simp only [utf8_append, utf8_flatten, List.map_map, List.append_assoc]
  refine congrArg (fun t => utf8 platform ++ (utf8 (gs ":k6") ++ (utf8 coreVer ++ t))) ?_
  refine congrArg List.flatten (List.map_congr_left fun d _ => ?_)
  simp [Function.comp, utf8_append, List.append_assoc]

/-- After the resolution loop, the `resolved` map holds, for each
dependency of a name-distinct list, the version its own catalog resolution
produced; names outside the list keep their prior binding. -/
theorem resolveDeps_mapGet (cat : GoStr → GoStr → Except GoErr GoModule) :
    ∀ (L : List Dependency) (mods : List GoModule) (resolved : List (GoStr × GoStr))
      (mods' : List GoModule) (resolved' : List (GoStr × GoStr)),
      resolveDeps cat L mods resolved = .ok (mods', resolved') →
      (L.map Dependency.name).Nodup →
      (∀ d ∈ L, mapGet resolved' d.name = catVer cat d) ∧
      (∀ n, n ∉ L.map Dependency.name → mapGet resolved' n = mapGet resolved n)
  | [], mods, resolved, mods', resolved', h, _ => by
    simp only [resolveDeps, Except.ok.injEq, Prod.mk.injEq] at h
    obtain ⟨-, rfl⟩ := h
    exact ⟨fun d hd => absurd hd (List.not_mem_nil d), fun n _ => rfl⟩
  | d :: rest, mods, resolved, mods', resolved', h, hnd => by
    simp only [resolveDeps] at h
    cases hm : cat d.name d.constraints with
    | error e => rw [hm] at h; cases h
    | ok m =>
      rw [hm] at h
      simp only [List.map_cons, List.nodup_cons] at hnd
      obtain ⟨hdn, hndrest⟩ := hnd
      obtain ⟨ih1, ih2⟩ := resolveDeps_mapGet cat rest (mods ++ [⟨m.path, m.version⟩])
        (mapSet resolved d.name m.version) mods' resolved' h hndrest
      refine ⟨?_, ?_⟩
      · intro d' hd'
        rcases List.mem_cons.mp hd' with rfl | hd'
        · rw [ih2 d'.name hdn, mapGet_mapSet_self, catVer, hm]
        · exact ih1 d' hd'
      · intro n hn
        simp only [List.map_cons, List.mem_cons, not_or] at hn
        rw [ih2 n hn.2, mapGet_mapSet_ne _ _ hn.1]

/-- C2, as stated, is false: the per-dependency serialisation the source
hashes is `":" + "{" + name + " " + constraints + "}" + resolvedVersion` —
`fmt`'s default rendering of the `Dependency` struct
(`fmt.Sprintf(":%s%s", d, resolved[d.Name])`, `builder.go:157`) — not the
claimed doubled form; at a concrete input the two digests differ. -/
theorem c2_counterexample :
    (Build witCfg (gs "linux/amd64") (gs "v0.1.0") [⟨gs "k6/x/ext", gs "v0.1.0"⟩]).map
        Artifact.id ≠
      Except.ok (sha1Hex (utf8 (claimSerial (gs "linux/amd64") (gs "v0.1.0")
        [(gs "k6/x/ext", gs "v0.1.0", gs "v0.1.0")]))) := by
  decide

/-- C2 (amended): for every build of a name-distinct dependency list, the
artifact id is the lowercase hex SHA-1 of the UTF-8 bytes of: the platform,
then `":k6"` plus the resolved core version, then for each dependency in
ascending name order `":"`, the brace form `"{" + name + " " + constraints
+ "}"`, and the version its catalog resolution produced. -/
theorem c2_artifact_id_formula (cfg : BuilderCfg) (platform k6c : GoStr)
    (deps : List Dependency) (a : Artifact)
    (hnd : (deps.map Dependency.name).Nodup)
    (h : Build cfg platform k6c deps = .ok a) :
    a.id = sha1Hex (utf8 (codeSerial platform
      (coreVerOf cfg.allowBuildSemvers cfg.catalog k6c)
      ((sortDeps deps).map fun d => (d, catVer cfg.catalog d)))) := by
  have hndsorted : ((sortDeps deps).map Dependency.name).Nodup :=
    ((perm_sortDeps deps).map Dependency.name).nodup_iff.mpr hnd
  simp only [Build] at h
  split at h
  next => exact Except.noConfusion h
  next bp hplat =>
    split at h
    next => exact Except.noConfusion h
    next k6Mod tag hcore =>
      split at h
      next => exact Except.noConfusion h
      next mods resolved hdeps =>
        have hcv : coreVerOf cfg.allowBuildSemvers cfg.catalog k6c = k6Mod.version := by
          rw [coreVerOf, hcore]
        have hlook := (resolveDeps_mapGet cfg.catalog (sortDeps deps) []
          (mapSet [] k6DepName k6Mod.version) mods resolved hdeps hndsorted).1
        have hser : hashData platform k6Mod.version (sortDeps deps) resolved =
            utf8 (codeSerial platform
              (coreVerOf cfg.allowBuildSemvers cfg.catalog k6c)
              ((sortDeps deps).map fun d => (d, catVer cfg.catalog d))) := by
          rw [hashData_eq_codeSerial, hcv]
          congr 2
          exact List.map_congr_left fun d hd => by rw [hlook d hd]
        split at h
        next artifactObject hget =>
          cases h
          simpa using congrArg sha1Hex hser
        next ge hget =>
          split at h
          next => exact Except.noConfusion h
          next hmiss =>
            split at h
            next => exact Except.noConfusion h
            next buildInfo binary hfoundry =>
              split at h
              next => exact Except.noConfusion h
              next artifactObject hput =>
                cases h
                simpa using congrArg sha1Hex hser

/-- Witness for C2 at a concrete input, the artifact spelled out. -/
theorem c2_witness :
    (([(⟨gs "k6/x/ext", gs "v0.1.0"⟩ : Dependency)].map Dependency.name).Nodup) ∧
    (⟨gs "7677fb94b4d3b38430df1b6e6aa3f902250be728",
        fileURL (gs "/store") (gs "7677fb94b4d3b38430df1b6e6aa3f902250be728"),
        [(gs "k6/x/ext", gs "v0.1.0"), (gs "k6", gs "v0.1.0")],
        gs "linux/amd64", sha256Hex (utf8 (gs "BINARY"))⟩ : Artifact).id =
      sha1Hex (utf8 (codeSerial (gs "linux/amd64")
        (coreVerOf witCfg.allowBuildSemvers witCfg.catalog (gs "v0.1.0"))
        ((sortDeps [⟨gs "k6/x/ext", gs "v0.1.0"⟩]).map fun d => (d, catVer witCfg.catalog d)))) :=
  ⟨by decide,
    c2_artifact_id_formula witCfg (gs "linux/amd64") (gs "v0.1.0")
      [⟨gs "k6/x/ext", gs "v0.1.0"⟩]
      ⟨gs "7677fb94b4d3b38430df1b6e6aa3f902250be728",
        fileURL (gs "/store") (gs "7677fb94b4d3b38430df1b6e6aa3f902250be728"),
        [(gs "k6/x/ext", gs "v0.1.0"), (gs "k6", gs "v0.1.0")],
        gs "linux/amd64", sha256Hex (utf8 (gs "BINARY"))⟩
      (by decide) (by decide)⟩

/-! ## Claim C5 — the build-metadata constraint form -/

theorem char_toNat_inj {c d : Char} (h : c.toNat = d.toNat) : c = d :=
  Char.ofNat_toNat c ▸ Char.ofNat_toNat d ▸ congrArg Char.ofNat h

theorem takeWhile_all {p : Char → Bool} : ∀ {l : GoStr},
    (∀ c ∈ l, p c = true) → l.takeWhile p = l
  | [], _ => rfl
  | c :: rest, h => by
    have hc := h c (List.mem_cons_self c rest)
    simp [List.takeWhile, hc, takeWhile_all fun x hx => h x (List.mem_cons_of_mem c hx)]

theorem dropWhile_all {p : Char → Bool} : ∀ {l : GoStr},
    (∀ c ∈ l, p c = true) → l.dropWhile p = []
  | [], _ => rfl
  | c :: rest, h => by
    have hc := h c (List.mem_cons_self c rest)
    simp [List.dropWhile, hc, dropWhile_all fun x hx => h x (List.mem_cons_of_mem c hx)]

theorem dropWhile_head_false {p : Char → Bool} {c : Char} {l : GoStr} (h : p c = false) :
    (c :: l).dropWhile p = c :: l := by
  simp [List.dropWhile, h]

theorem parseNum_digit {d : Char} {r : GoStr} (hd : isDigitCh d = true)
    (hr : headIsDigit r = false) : parseNum (d :: r) = some ([d], r) := by
  simp only [parseNum]
  by_cases h0 : d = '0'
  · subst h0; simp
  · have hd' : (49 ≤ d.toNat && d.toNat ≤ 57) = true := by
      simp only [isDigitCh, Bool.and_eq_true, decide_eq_true_eq] at hd
      have h48 : d.toNat ≠ 48 := fun hh => h0 (char_toNat_inj (by rw [hh]; rfl))
      simp only [Bool.and_eq_true, decide_eq_true_eq]
      omega
    rw [if_neg h0, if_pos hd']
    cases r with
    | nil => simp
    | cons c rest =>
      simp only [headIsDigit] at hr
      simp [List.takeWhile, List.dropWhile, hr]

theorem parseVersion_digits {d1 d2 d3 : Char} {rest : GoStr}
    (h1 : isDigitCh d1 = true) (h2 : isDigitCh d2 = true) (h3 : isDigitCh d3 = true)
    (hrest : headIsDigit rest = false) :
    parseVersion ('v' :: d1 :: '.' :: d2 :: '.' :: d3 :: rest) =
      some (['v', d1, '.', d2, '.', d3], rest) := by
  simp only [parseVersion, show verLead 'v' = true from rfl, if_true,
    parseNum_digit h1 (show headIsDigit ('.' :: d2 :: '.' :: d3 :: rest) = false from rfl),
    parseNum_digit h2 (show headIsDigit ('.' :: d3 :: rest) = false from rfl),
    parseNum_digit h3 hrest]
  rfl

theorem parseBuild_all {tag : GoStr} (h1 : tag ≠ [])
    (h2 : ∀ c ∈ tag, buildClass c = true) : parseBuild tag = some (tag, []) := by
  simp only [parseBuild]
  rw [takeWhile_all h2, dropWhile_all h2, if_neg h1]
  rfl

theorem matchCore_ver {d1 d2 d3 : Char} {tag : GoStr}
    (h1 : isDigitCh d1 = true) (h2 : isDigitCh d2 = true) (h3 : isDigitCh d3 = true)
    (htag1 : tag ≠ []) (htag2 : ∀ c ∈ tag, buildClass c = true) :
    matchCore ('v' :: d1 :: '.' :: d2 :: '.' :: d3 :: '+' :: tag) =
      some (['v', d1, '.', d2, '.', d3], tag) := by
  simp only [matchCore,
    dropWhile_head_false (show reSpace 'v' = false from rfl),
    parseVersion_digits h1 h2 h3 (show headIsDigit ('+' :: tag) = false from rfl),
    show sepClass '+' = true from rfl, if_true,
    parseBuild_all htag1 htag2]

theorem matchAt_ver {d1 d2 d3 : Char} {tag : GoStr}
    (h1 : isDigitCh d1 = true) (h2 : isDigitCh d2 = true) (h3 : isDigitCh d3 = true)
    (htag1 : tag ≠ []) (htag2 : ∀ c ∈ tag, buildClass c = true) :
    matchAt ('v' :: d1 :: '.' :: d2 :: '.' :: d3 :: '+' :: tag) =
      some ([], ['v', d1, '.', d2, '.', d3], tag) := by
  simp only [matchAt, show opClass 'v' = false from rfl, Bool.false_eq_true, if_false,
    matchCore_ver h1 h2 h3 htag1 htag2, Option.map_some']

theorem matchAt_op {c : Char} {rest v b : GoStr} (hc : opClass c = true)
    (h : matchCore rest = some (v, b)) : matchAt (c :: rest) = some ([c], v, b) := by
  simp only [matchAt, hc, if_true, h]

theorem matchCore_nonver {c : Char} {l : GoStr} (hs : reSpace c = false)
    (hv : verLead c = false) : matchCore (c :: l) = none := by
  simp only [matchCore, dropWhile_head_false hs, parseVersion, hv, Bool.false_eq_true, if_false]

theorem matchAt_none {c : Char} {rest : GoStr} (hc : opClass c = true)
    (hrest : matchCore rest = none) (hall : matchCore (c :: rest) = none) :
    matchAt (c :: rest) = none := by
  simp only [matchAt, hc, if_true, hrest, hall, Option.map_none']

theorem findMatch_cons_some {c : Char} {rest : GoStr} {m : GoStr × GoStr × GoStr}
    (h : matchAt (c :: rest) = some m) : findMatch (c :: rest) = some m := by
  simp only [findMatch, h]

theorem findMatch_cons_none {c : Char} {rest : GoStr} (h : matchAt (c :: rest) = none) :
    findMatch (c :: rest) = findMatch rest := by
  simp only [findMatch, h]

theorem hasBuildMetadata_of_match {k6c op ver build : GoStr}
    (h : findMatch k6c = some (op, ver, build)) (hop : op = [] ∨ op = gs "=")
    (hver : ver = gs "v0.0.0") : hasBuildMetadata k6c = .ok build := by
  simp only [hasBuildMetadata, h]
  rcases hop with rfl | rfl <;> simp [hver]

theorem hasBuildMetadata_ver_mismatch {k6c op ver build : GoStr}
    (h : findMatch k6c = some (op, ver, build)) (hop : op = [] ∨ op = gs "=")
    (hver : ver ≠ gs "v0.0.0") :
    hasBuildMetadata k6c = .error (wrapErr errInvalidParameters
      (.sentinel "version with build metadata must start with v0.0.0")) := by
  simp only [hasBuildMetadata, h]
  rcases hop with rfl | rfl <;> simp [hver]

theorem hasBuildMetadata_op_mismatch {k6c op ver build : GoStr}
    (h : findMatch k6c = some (op, ver, build)) (hop1 : op ≠ []) (hop2 : op ≠ gs "=") :
    hasBuildMetadata k6c = .error (wrapErr errInvalidParameters
      (.sentinel "only exact match is allowed for versions with build metadata")) := by
  simp only [hasBuildMetadata, h]
  simp [hop1, hop2]

theorem verNe {d1 d2 d3 : Char} (h : ¬(d1 = '0' ∧ d2 = '0' ∧ d3 = '0')) :
    (['v', d1, '.', d2, '.', d3] : GoStr) ≠ gs "v0.0.0" := by
  rw [show gs "v0.0.0" = ['v', '0', '.', '0', '.', '0'] from rfl]
  intro he
  simp only [List.cons.injEq, and_true, true_and] at he
  exact h ⟨he.1, he.2.1, he.2.2⟩

theorem resolveCore_err {allow : Bool} {cat : GoStr → GoStr → Except GoErr GoModule}
    {k6c : GoStr} {e : GoErr} (h : hasBuildMetadata k6c = .error e) :
    resolveCore allow cat k6c = .error e := by
  simp [resolveCore, h]

theorem resolveCore_metadata {cat : GoStr → GoStr → Except GoErr GoModule} {k6c tag : GoStr}
    (h : hasBuildMetadata k6c = .ok tag) (ht : tag ≠ []) :
    resolveCore true cat k6c = .ok (⟨k6PathName, tag⟩, tag) := by
  simp [resolveCore, h, ht]

theorem resolveCore_semverNotAllowed {cat : GoStr → GoStr → Except GoErr GoModule}
    {k6c tag : GoStr} (h : hasBuildMetadata k6c = .ok tag) (ht : tag ≠ []) :
    resolveCore false cat k6c = .error (wrapErr errInvalidParameters errBuildSemverNotAllowed) := by
  simp [resolveCore, h, ht]

theorem Build_invalid_of_core_error {cfg : BuilderCfg} {k6c : GoStr} {e : GoErr}
    (platform : GoStr) (deps : List Dependency)
    (h : resolveCore cfg.allowBuildSemvers cfg.catalog k6c = .error e)
    (hk : errHead e = errInvalidParameters) :
    errKindOf (Build cfg platform k6c deps) = some errInvalidParameters := by
  simp only [Build]
  cases hplat : parsePlatform platform with
  | error ep => simp [errKindOf, errHead, wrapErr]
  | ok bp =>
    rw [h]
    simp [errKindOf, hk]

/-- C5 (amended): for a core constraint of the build-metadata form
`op + "v" + X.Y.Z + "+" + tag` (single-digit version components, non-empty
alphanumeric tag), with `op` drawn from the constraint grammar's operators
or absent:
(i) a single-character operator other than `=` (`>`, `<`, `~`, `^`) makes
`Build` fail with `ErrInvalidParameters`, as claimed;
(ii) with the operator absent or `=`, a base version other than `v0.0.0`
makes `Build` fail with `ErrInvalidParameters`, as claimed;
(iii) with the operator absent or `=` and base `v0.0.0`, the tag is
extracted; `AllowBuildSemvers = false` makes `Build` fail with
`ErrInvalidParameters`, and with `true`, core resolution yields the
canonical core path with the raw tag, for every catalog (the catalog is
not consulted);
(iv) the deviation from the claim: a two-character operator `>=`, `<=` or
`!=` is NOT rejected — the expression matches from its second character,
the captured operator is `=`, and the constraint is accepted as an exact
match. -/
theorem c5_semver_build_metadata (op : GoStr) (d1 d2 d3 : Char) (tag : GoStr)
    (hop : op ∈ [([] : GoStr), gs "=", gs ">", gs "<", gs ">=", gs "<=", gs "!=", gs "~", gs "^"])
    (h1 : isDigitCh d1 = true) (h2 : isDigitCh d2 = true) (h3 : isDigitCh d3 = true)
    (htag1 : tag ≠ []) (htag2 : ∀ c ∈ tag, (isDigitCh c || isAlphaCh c) = true) :
    (op ∈ [gs ">", gs "<", gs "~", gs "^"] →
      errKindOf (hasBuildMetadata (op ++ 'v' :: d1 :: '.' :: d2 :: '.' :: d3 :: '+' :: tag)) =
        some errInvalidParameters ∧
      ∀ (cfg : BuilderCfg) (platform : GoStr) (deps : List Dependency),
        errKindOf (Build cfg platform
          (op ++ 'v' :: d1 :: '.' :: d2 :: '.' :: d3 :: '+' :: tag) deps) =
          some errInvalidParameters) ∧
    (op ∈ [([] : GoStr), gs "="] → ¬(d1 = '0' ∧ d2 = '0' ∧ d3 = '0') →
      errKindOf (hasBuildMetadata (op ++ 'v' :: d1 :: '.' :: d2 :: '.' :: d3 :: '+' :: tag)) =
        some errInvalidParameters ∧
      ∀ (cfg : BuilderCfg) (platform : GoStr) (deps : List Dependency),
        errKindOf (Build cfg platform
          (op ++ 'v' :: d1 :: '.' :: d2 :: '.' :: d3 :: '+' :: tag) deps) =
          some errInvalidParameters) ∧
    (op ∈ [([] : GoStr), gs "="] → d1 = '0' → d2 = '0' → d3 = '0' →
      hasBuildMetadata (op ++ 'v' :: d1 :: '.' :: d2 :: '.' :: d3 :: '+' :: tag) = .ok tag ∧
      (∀ cat, resolveCore true cat
        (op ++ 'v' :: d1 :: '.' :: d2 :: '.' :: d3 :: '+' :: tag) =
          .ok (⟨k6PathName, tag⟩, tag)) ∧
      (∀ (cfg : BuilderCfg) (platform : GoStr) (deps : List Dependency),
        cfg.allowBuildSemvers = false →
        errKindOf (Build cfg platform
          (op ++ 'v' :: d1 :: '.' :: d2 :: '.' :: d3 :: '+' :: tag) deps) =
          some errInvalidParameters)) ∧
    (op ∈ [gs ">=", gs "<=", gs "!="] → d1 = '0' → d2 = '0' → d3 = '0' →
      hasBuildMetadata (op ++ 'v' :: d1 :: '.' :: d2 :: '.' :: d3 :: '+' :: tag) = .ok tag ∧
      ∀ cat, resolveCore true cat
        (op ++ 'v' :: d1 :: '.' :: d2 :: '.' :: d3 :: '+' :: tag) =
          .ok (⟨k6PathName, tag⟩, tag)) := by
  have htagB : ∀ c ∈ tag, buildClass c = true := by
    intro c hc
    have h := htag2 c hc
    simp only [buildClass, Bool.or_eq_true] at h ⊢
    tauto
  have hcore := matchCore_ver h1 h2 h3 htag1 htagB
  simp only [List.mem_cons, List.not_mem_nil, or_false] at hop
  rcases hop with rfl | rfl | rfl | rfl | rfl | rfl | rfl | rfl | rfl
  · -- op absent
    simp only [List.nil_append]
    have hm := findMatch_cons_some (matchAt_ver h1 h2 h3 htag1 htagB)
    refine ⟨fun hmem => absurd hmem (by decide), ?_, ?_, fun hmem => absurd hmem (by decide)⟩
    · intro _ hnz
      have hbm := hasBuildMetadata_ver_mismatch hm (Or.inl rfl) (verNe hnz)
      exact ⟨by rw [hbm]; rfl, fun cfg platform deps =>
        Build_invalid_of_core_error platform deps (resolveCore_err hbm) rfl⟩
    · intro _ hz1 hz2 hz3
      subst hz1; subst hz2; subst hz3
      have hbm := hasBuildMetadata_of_match hm (Or.inl rfl) rfl
      refine ⟨hbm, fun cat => resolveCore_metadata hbm htag1, ?_⟩
      intro cfg platform deps hallow
      have hrc : resolveCore cfg.allowBuildSemvers cfg.catalog
          ('v' :: '0' :: '.' :: '0' :: '.' :: '0' :: '+' :: tag) =
          .error (wrapErr errInvalidParameters errBuildSemverNotAllowed) := by
        rw [hallow]
        exact resolveCore_semverNotAllowed hbm htag1
      exact Build_invalid_of_core_error platform deps hrc rfl
  · -- op "="
    simp only [show (gs "=" : GoStr) = ['='] from rfl, List.cons_append, List.nil_append]
    have hm := findMatch_cons_some (matchAt_op (show opClass '=' = true from rfl) hcore)
    refine ⟨fun hmem => absurd hmem (by decide), ?_, ?_, fun hmem => absurd hmem (by decide)⟩
    · intro _ hnz
      have hbm := hasBuildMetadata_ver_mismatch hm (Or.inr rfl) (verNe hnz)
      exact ⟨by rw [hbm]; rfl, fun cfg platform deps =>
        Build_invalid_of_core_error platform deps (resolveCore_err hbm) rfl⟩
    · intro _ hz1 hz2 hz3
      subst hz1; subst hz2; subst hz3
      have hbm := hasBuildMetadata_of_match hm (Or.inr rfl) rfl
      refine ⟨hbm, fun cat => resolveCore_metadata hbm htag1, ?_⟩
      intro cfg platform deps hallow
      have hrc : resolveCore cfg.allowBuildSemvers cfg.catalog
          ('=' :: 'v' :: '0' :: '.' :: '0' :: '.' :: '0' :: '+' :: tag) =
          .error (wrapErr errInvalidParameters errBuildSemverNotAllowed) := by
        rw [hallow]
        exact resolveCore_semverNotAllowed hbm htag1
      exact Build_invalid_of_core_error platform deps hrc rfl
  · -- op ">"
    simp only [show (gs ">" : GoStr) = ['>'] from rfl, List.cons_append, List.nil_append]
    have hm := findMatch_cons_some (matchAt_op (show opClass '>' = true from rfl) hcore)
    have hbm := hasBuildMetadata_op_mismatch hm (by decide) (by decide)
    exact ⟨fun _ => ⟨by rw [hbm]; rfl, fun cfg platform deps =>
        Build_invalid_of_core_error platform deps (resolveCore_err hbm) rfl⟩,
      fun hmem => absurd hmem (by decide), fun hmem => absurd hmem (by decide),
      fun hmem => absurd hmem (by decide)⟩
  · -- op "<"
    simp only [show (gs "<" : GoStr) = ['<'] from rfl, List.cons_append, List.nil_append]
    have hm := findMatch_cons_some (matchAt_op (show opClass '<' = true from rfl) hcore)
    have hbm := hasBuildMetadata_op_mismatch hm (by decide) (by decide)
    exact ⟨fun _ => ⟨by rw [hbm]; rfl, fun cfg platform deps =>
        Build_invalid_of_core_error platform deps (resolveCore_err hbm) rfl⟩,
      fun hmem => absurd hmem (by decide), fun hmem => absurd hmem (by decide),
      fun hmem => absurd hmem (by decide)⟩
  · -- op ">="
    simp only [show (gs ">=" : GoStr) = ['>', '='] from rfl, List.cons_append, List.nil_append]
    have hm0 : matchAt ('>' :: '=' :: 'v' :: d1 :: '.' :: d2 :: '.' :: d3 :: '+' :: tag) =
        none :=
      matchAt_none (show opClass '>' = true from rfl)
        (matchCore_nonver (show reSpace '=' = false from rfl)
          (show verLead '=' = false from rfl))
        (matchCore_nonver (show reSpace '>' = false from rfl)
          (show verLead '>' = false from rfl))
    have hm : findMatch ('>' :: '=' :: 'v' :: d1 :: '.' :: d2 :: '.' :: d3 :: '+' :: tag) =
        some (['='], ['v', d1, '.', d2, '.', d3], tag) := by
      rw [findMatch_cons_none hm0]
      exact findMatch_cons_some (matchAt_op (show opClass '=' = true from rfl) hcore)
    refine ⟨fun hmem => absurd hmem (by decide), fun hmem => absurd hmem (by decide),
      fun hmem => absurd hmem (by decide), ?_⟩
    intro _ hz1 hz2 hz3
    subst hz1; subst hz2; subst hz3
    have hbm := hasBuildMetadata_of_match hm (Or.inr rfl) rfl
    exact ⟨hbm, fun cat => resolveCore_metadata hbm htag1⟩
  · -- op "<="
    simp only [show (gs "<=" : GoStr) = ['<', '='] from rfl, List.cons_append, List.nil_append]
    have hm0 : matchAt ('<' :: '=' :: 'v' :: d1 :: '.' :: d2 :: '.' :: d3 :: '+' :: tag) =
        none :=
      matchAt_none (show opClass '<' = true from rfl)
        (matchCore_nonver (show reSpace '=' = false from rfl)
          (show verLead '=' = false from rfl))
        (matchCore_nonver (show reSpace '<' = false from rfl)
          (show verLead '<' = false from rfl))
    have hm : findMatch ('<' :: '=' :: 'v' :: d1 :: '.' :: d2 :: '.' :: d3 :: '+' :: tag) =
        some (['='], ['v', d1, '.', d2, '.', d3], tag) := by
      rw [findMatch_cons_none hm0]
      exact findMatch_cons_some (matchAt_op (show opClass '=' = true from rfl) hcore)
    refine ⟨fun hmem => absurd hmem (by decide), fun hmem => absurd hmem (by decide),
      fun hmem => absurd hmem (by decide), ?_⟩
    intro _ hz1 hz2 hz3
    subst hz1; subst hz2; subst hz3
    have hbm := hasBuildMetadata_of_match hm (Or.inr rfl) rfl
    exact ⟨hbm, fun cat => resolveCore_metadata hbm htag1⟩
  · -- op "!="
    simp only [show (gs "!=" : GoStr) = ['!', '='] from rfl, List.cons_append, List.nil_append]
    have hm0 : matchAt ('!' :: '=' :: 'v' :: d1 :: '.' :: d2 :: '.' :: d3 :: '+' :: tag) =
        none :=
      matchAt_none (show opClass '!' = true from rfl)
        (matchCore_nonver (show reSpace '=' = false from rfl)
          (show verLead '=' = false from rfl))
        (matchCore_nonver (show reSpace '!' = false from rfl)
          (show verLead '!' = false from rfl))
    have hm : findMatch ('!' :: '=' :: 'v' :: d1 :: '.' :: d2 :: '.' :: d3 :: '+' :: tag) =
        some (['='], ['v', d1, '.', d2, '.', d3], tag) := by
      rw [findMatch_cons_none hm0]
      exact findMatch_cons_some (matchAt_op (show opClass '=' = true from rfl) hcore)
    refine ⟨fun hmem => absurd hmem (by decide), fun hmem => absurd hmem (by decide),
      fun hmem => absurd hmem (by decide), ?_⟩
    intro _ hz1 hz2 hz3
    subst hz1; subst hz2; subst hz3
    have hbm := hasBuildMetadata_of_match hm (Or.inr rfl) rfl
    exact ⟨hbm, fun cat => resolveCore_metadata hbm htag1⟩
  · -- op "~"
    simp only [show (gs "~" : GoStr) = ['~'] from rfl, List.cons_append, List.nil_append]
    have hm := findMatch_cons_some (matchAt_op (show opClass '~' = true from rfl) hcore)
    have hbm := hasBuildMetadata_op_mismatch hm (by decide) (by decide)
    exact ⟨fun _ => ⟨by rw [hbm]; rfl, fun cfg platform deps =>
        Build_invalid_of_core_error platform deps (resolveCore_err hbm) rfl⟩,
      fun hmem => absurd hmem (by decide), fun hmem => absurd hmem (by decide),
      fun hmem => absurd hmem (by decide)⟩
  · -- op "^"
    simp only [show (gs "^" : GoStr) = ['^'] from rfl, List.cons_append, List.nil_append]
    have hm := findMatch_cons_some (matchAt_op (show opClass '^' = true from rfl) hcore)
    have hbm := hasBuildMetadata_op_mismatch hm (by decide) (by decide)
    exact ⟨fun _ => ⟨by rw [hbm]; rfl, fun cfg platform deps =>
        Build_invalid_of_core_error platform deps (resolveCore_err hbm) rfl⟩,
      fun hmem => absurd hmem (by decide), fun hmem => absurd hmem (by decide),
      fun hmem => absurd hmem (by decide)⟩

/-- C5, as stated, is false for the two-character operators: the constraint
`>=v0.0.0+abc123` carries an operator other than `=`, yet with
`AllowBuildSemvers = true` `Build` does not fail with
`ErrInvalidParameters` — the expression matches from the second character,
captures operator `=`, and the build succeeds. -/
theorem c5_counterexample :
    hasBuildMetadata (gs ">=v0.0.0+abc123") = .ok (gs "abc123") ∧
    (Build witCfg (gs "linux/amd64") (gs ">=v0.0.0+abc123") []).isOk = true ∧
    errKindOf (Build witCfg (gs "linux/amd64") (gs ">=v0.0.0+abc123") []) ≠
      some errInvalidParameters := by
  refine ⟨by decide, by decide, by decide⟩

/-- Witness for C5 at concrete inputs: the absent operator, the operator
`>` and the operator `>=`, each on `v0.0.0+abc123`. -/
theorem c5_witness :
    (hasBuildMetadata (([] : GoStr) ++ 'v' :: '0' :: '.' :: '0' :: '.' :: '0' :: '+' ::
        gs "abc123") = .ok (gs "abc123") ∧
      (∀ cat, resolveCore true cat (([] : GoStr) ++ 'v' :: '0' :: '.' :: '0' :: '.' :: '0' ::
          '+' :: gs "abc123") = .ok (⟨k6PathName, gs "abc123"⟩, gs "abc123")) ∧
      (∀ (cfg : BuilderCfg) (platform : GoStr) (deps : List Dependency),
        cfg.allowBuildSemvers = false →
        errKindOf (Build cfg platform (([] : GoStr) ++ 'v' :: '0' :: '.' :: '0' :: '.' ::
          '0' :: '+' :: gs "abc123") deps) = some errInvalidParameters)) ∧
    (errKindOf (hasBuildMetadata (gs ">" ++ 'v' :: '0' :: '.' :: '0' :: '.' :: '0' :: '+' ::
        gs "abc123")) = some errInvalidParameters ∧
      ∀ (cfg : BuilderCfg) (platform : GoStr) (deps : List Dependency),
        errKindOf (Build cfg platform (gs ">" ++ 'v' :: '0' :: '.' :: '0' :: '.' :: '0' ::
          '+' :: gs "abc123") deps) = some errInvalidParameters) ∧
    (hasBuildMetadata (gs ">=" ++ 'v' :: '0' :: '.' :: '0' :: '.' :: '0' :: '+' ::
        gs "abc123") = .ok (gs "abc123") ∧
      ∀ cat, resolveCore true cat (gs ">=" ++ 'v' :: '0' :: '.' :: '0' :: '.' :: '0' :: '+' ::
        gs "abc123") = .ok (⟨k6PathName, gs "abc123"⟩, gs "abc123")) :=
  ⟨(c5_semver_build_metadata [] '0' '0' '0' (gs "abc123") (by decide) (by decide) (by decide)
      (by decide) (by decide) (by decide)).2.2.1 (by decide) rfl rfl rfl,
    (c5_semver_build_metadata (gs ">") '0' '0' '0' (gs "abc123") (by decide) (by decide)
      (by decide) (by decide) (by decide) (by decide)).1 (by decide),
    (c5_semver_build_metadata (gs ">=") '0' '0' '0' (gs "abc123") (by decide) (by decide)
      (by decide) (by decide) (by decide) (by decide)).2.2.2 (by decide) rfl rfl rfl⟩
